import Mathlib

/-! # ServoController.c : I2C servo controller for the ATtiny2313

A shallow embedding of `src/ServoController.c`.

* The three interrupt service routines are state transformers
  (`TIMER0_COMPA_vect`, `TIMER0_COMPB_vect`, `TIMER0_OVF_vect`).
* `main` is a transition system.  Its program counter `Pc` names the statements
  of `main` that read a volatile hardware register: the five busy-wait loops
  and the three `if` statements that follow a wait.  One `Event.poll hw`
  executes one such statement, `hw` being the register values it reads; a
  busy-wait whose condition still holds stays where it is.
* The bus and the timer are the environment: a run is a list of events, each
  either a poll of `main` or one of the three interrupts.  The registers that
  one statement reads are read together, once.  An interrupt is served
  between two polls; `acceptSplit` is the one place where interrupts are let
  in between two statements of the same poll (lines 188 and 189, which both
  write what the overflow interrupt writes too).
* Writes to the registers of the serial interface (`USISR`, `USICR`, `USIDR`)
  are commands to the peripheral, whose registers the environment supplies at
  every read; of these writes the model keeps the acknowledge sequence, as the
  switch of SDA to output in `DDRB` and as the counter `acks`.

Eight-bit registers and variables are natural numbers; a value that is stored
is reduced modulo 256 where the C code could leave the range.
-/

namespace ServoController

/-! ## Constants -/

/-- Bit number of the start condition flag in `USISR` (avr/io.h). -/
def USISIF : Nat := 7
/-- Bit number of the counter overflow flag in `USISR` (avr/io.h). -/
def USIOIF : Nat := 6
/-- Bit number of the stop condition flag in `USISR` (avr/io.h). -/
def USIPF : Nat := 5
/-- Bit number of the data collision flag in `USISR` (avr/io.h). -/
def USIDC : Nat := 4

/-- Line 35: `#define ADR_b4 0`. -/
def ADR_b4 : Nat := 0
/-- Line 36: `#define ADR_b5 0`. -/
def ADR_b5 : Nat := 0
/-- Line 37: `#define ADR_b6 0`. -/
def ADR_b6 : Nat := 0

/-- The three compile-time address bits (lines 35-37), kept as a parameter of
the protocol handler so that every value of the `#define`s is covered. -/
structure Config where
  b4 : Nat
  b5 : Nat
  b6 : Nat
  deriving DecidableEq, Repr

/-- The configuration as it stands in the source: all three bits are 0. -/
def sourceConfig : Config := ⟨ADR_b4, ADR_b5, ADR_b6⟩

/-! ## State -/

/-- Statements of `main` at which a volatile register is read. -/
inductive Pc where
  /-- Line 162: `while (!(USISR & (1<<USISIF)));` -/
  | waitStart
  /-- Line 165: `while ((PINB & 128) && !(PINB & 32));` -/
  | waitStartEnd
  /-- Line 168: `if (PINB & 32) break;` -/
  | checkStop
  /-- Line 177: `while (!(USISR & ((1<<USIOIF) | (1<<USIPF))));` -/
  | waitAddr
  /-- Lines 180-185: `if (USISR & (1<<USIOIF))` and the address comparison. -/
  | checkAddr
  /-- Line 195: `while (!(USISR & (1<<USIOIF)));` after the address. -/
  | waitAddrAck
  /-- Line 206: `while (!(USISR & ((1<<USIOIF) | (1<<USIPF))));` in the loop. -/
  | waitData (channel : Nat)
  /-- Lines 209-212: `if (USISR & (1<<USIOIF))` and the store of the byte. -/
  | checkData (channel : Nat)
  /-- Line 218: `while (!(USISR & (1<<USIOIF)));` after a data byte. -/
  | waitDataAck (channel : Nat)
  /-- Line 229 has been passed: the `break` of line 169 left `while (1)`. -/
  | halted
  deriving DecidableEq, Repr

/-- The variables and output registers of the program. -/
structure State where
  /-- Line 68: `volatile uint8_t servo[10]`. -/
  servo : List Nat
  /-- Line 71: `volatile uint8_t ledTimeout`. -/
  ledTimeout : Nat
  /-- Line 95: `static uint8_t loop`. -/
  loop : Nat
  OCR0A : Nat
  OCR0B : Nat
  PORTA : Nat
  PORTB : Nat
  PORTD : Nat
  DDRA : Nat
  DDRB : Nat
  DDRD : Nat
  /-- Where `main` stands. -/
  pc : Pc
  /-- Ghost counter: how often the acknowledge sequence (lines 192-194 and
  215-217: `USIDR=0; DDRB |= 32; USISR = ... | 14`) has been executed. -/
  acks : Nat
  deriving DecidableEq, Repr

/-- The values of the input registers at one read. -/
structure Hw where
  USISR : Nat
  USIDR : Nat
  PINB : Nat
  deriving DecidableEq, Repr

/-- What happens next: `main` executes the statement it stands at, or one of
the three timer interrupts is served. -/
inductive Event where
  | poll (hw : Hw)
  | ovf
  | compA
  | compB
  deriving DecidableEq, Repr

/-- Read of `servo[i]`.  The array has ten elements; an index outside it, which
the C code must not use, reads 0 here, as a write outside it (`List.set`)
changes nothing. -/
def rd (servo : List Nat) (i : Nat) : Nat := servo.getD i 0

/-- `r & ~m` on an eight-bit register. -/
def clr (r m : Nat) : Nat := r &&& (255 ^^^ m)

/-! ## Interrupt service routines -/

/-- Lines 74-81: sets servo 0-4 pins to low. -/
def TIMER0_COMPA_vect (s : State) : State :=
  { s with PORTD := clr (clr (clr s.PORTD 1) 2) 4, PORTA := clr (clr s.PORTA 2) 1 }

/-- Lines 84-91: sets servo 5-9 pins to low. -/
def TIMER0_COMPB_vect (s : State) : State :=
  { s with PORTD := clr (clr (clr (clr s.PORTD 8) 16) 32) 64,
           PORTB := clr s.PORTB 1 }

/-- Lines 98-106: the first pin of the pair. -/
def raiseFirst (s : State) : State :=
  if rd s.servo s.loop ≠ 0 then
    match s.loop with
    | 0 => { s with PORTD := s.PORTD ||| 1 }
    | 1 => { s with PORTD := s.PORTD ||| 2 }
    | 2 => { s with PORTA := s.PORTA ||| 2 }
    | 3 => { s with PORTA := s.PORTA ||| 1 }
    | 4 => { s with PORTD := s.PORTD ||| 4 }
    | _ => s
  else s

/-- Lines 107-115: the second pin of the pair. -/
def raiseSecond (s : State) : State :=
  if rd s.servo (s.loop + 5) ≠ 0 then
    match s.loop with
    | 0 => { s with PORTD := s.PORTD ||| 8 }
    | 1 => { s with PORTD := s.PORTD ||| 16 }
    | 2 => { s with PORTD := s.PORTD ||| 32 }
    | 3 => { s with PORTD := s.PORTD ||| 64 }
    | 4 => { s with PORTB := s.PORTB ||| 1 }
    | _ => s
  else s

/-- Lines 118-120: `if (++loop>4) loop=0;` on a `uint8_t`. -/
def nextLoop (loop : Nat) : Nat :=
  if (loop + 1) % 256 > 4 then 0 else (loop + 1) % 256

/-- Lines 118-122: advance the cursor and load the compare registers. -/
def armCompare (s : State) : State :=
  { s with loop := nextLoop s.loop, OCR0A := rd s.servo (nextLoop s.loop),
           OCR0B := rd s.servo (nextLoop s.loop + 5) }

/-- Lines 125-130: the activity led. -/
def ledTick (s : State) : State :=
  if s.ledTimeout ≠ 0 then
    if s.ledTimeout - 1 = 0 then
      { s with ledTimeout := s.ledTimeout - 1, PORTB := s.PORTB ||| 64 }
    else { s with ledTimeout := s.ledTimeout - 1 }
  else s

/-- Lines 94-131: the timer overflow interrupt. -/
def TIMER0_OVF_vect (s : State) : State :=
  ledTick (armCompare (raiseSecond (raiseFirst s)))

/-! ## The main loop -/

/-- Line 184: `(ADR_b6<<7) | (ADR_b5<<6) | (ADR_b4<<5) | (PINB & 30)` as a
`uint8_t`. -/
def myAddress (cfg : Config) (pinb : Nat) : Nat :=
  ((cfg.b6 <<< 7) ||| (cfg.b5 <<< 6) ||| (cfg.b4 <<< 5) ||| (pinb &&& 30)) % 256

/-- Lines 68, 71, 95 and 136-148: the state when `main` reaches `while (1)`;
the registers that the program does not write before are at their reset
value 0. -/
def boot : State :=
  { servo := List.replicate 10 0, ledTimeout := 100, loop := 0,
    OCR0A := 0, OCR0B := 0, PORTA := 0, PORTB := 2 ||| 4 ||| 8 ||| 16,
    PORTD := 0, DDRA := 1 ||| 2, DDRB := 1 ||| 64,
    DDRD := 1 ||| 2 ||| 4 ||| 8 ||| 16 ||| 32 ||| 64,
    pc := Pc.waitStart, acks := 0 }

/-- Lines 153-161: the head of the `while (1)` body, up to the wait for the
start condition. -/
def loopTop (s : State) : State :=
  { s with DDRB := clr (clr s.DDRB 128) 32, pc := Pc.waitStart }

/-- The state in which `main` first waits for a start condition. -/
def init : State := loopTop boot

/-- Lines 192-194 and 215-217: `USIDR=0; DDRB |= 32; USISR = ... | 14`. -/
def sendAck (s : State) : State :=
  { s with DDRB := s.DDRB ||| 32, acks := s.acks + 1 }

/-- Line 199, the loop test `channel<10`: receive the next byte or leave the
loop, which ends the body of `while (1)`. -/
def forTest (s : State) (channel : Nat) : State :=
  if channel < 10 then { s with pc := Pc.waitData channel } else loopTop s

/-- One statement of `main`, reading the registers `hw`. -/
def mainStep (cfg : Config) (s : State) (hw : Hw) : State :=
  match s.pc with
  | Pc.waitStart =>
      if hw.USISR &&& (1 <<< USISIF) = 0 then s
      else { s with pc := Pc.waitStartEnd }
  | Pc.waitStartEnd =>
      if hw.PINB &&& 128 ≠ 0 ∧ hw.PINB &&& 32 = 0 then s
      else { s with pc := Pc.checkStop }
  | Pc.checkStop =>
      if hw.PINB &&& 32 ≠ 0 then { s with pc := Pc.halted }
      else { s with pc := Pc.waitAddr }
  | Pc.waitAddr =>
      if hw.USISR &&& ((1 <<< USIOIF) ||| (1 <<< USIPF)) = 0 then s
      else { s with pc := Pc.checkAddr }
  | Pc.checkAddr =>
      if hw.USISR &&& (1 <<< USIOIF) ≠ 0 then
        if hw.USIDR = 0 ∨ hw.USIDR = myAddress cfg hw.PINB then
          { sendAck { s with PORTB := clr s.PORTB 64, ledTimeout := 20 } with
            pc := Pc.waitAddrAck }
        else loopTop s
      else loopTop s
  | Pc.waitAddrAck =>
      if hw.USISR &&& (1 <<< USIOIF) = 0 then s
      else forTest { s with DDRB := clr s.DDRB 32 } 0
  | Pc.waitData channel =>
      if hw.USISR &&& ((1 <<< USIOIF) ||| (1 <<< USIPF)) = 0 then s
      else { s with pc := Pc.checkData channel }
  | Pc.checkData channel =>
      if hw.USISR &&& (1 <<< USIOIF) ≠ 0 then
        { sendAck { s with servo := s.servo.set channel (hw.USIDR % 256) } with
          pc := Pc.waitDataAck channel }
      else loopTop s
  | Pc.waitDataAck channel =>
      if hw.USISR &&& (1 <<< USIOIF) = 0 then s
      else forTest { s with DDRB := clr s.DDRB 32 } ((channel + 1) % 256)
  | Pc.halted => s

/-- One event of the whole system. -/
def step (cfg : Config) (s : State) : Event → State
  | Event.poll hw => mainStep cfg s hw
  | Event.ovf => TIMER0_OVF_vect s
  | Event.compA => TIMER0_COMPA_vect s
  | Event.compB => TIMER0_COMPB_vect s

/-- A run: the events are served one after the other. -/
def run (cfg : Config) (s : State) (evs : List Event) : State :=
  evs.foldl (step cfg) s


/-! ## Pins -/

/-- The three output ports. -/
inductive Port where
  | A
  | B
  | D
  deriving DecidableEq, Repr

/-- Lines 13-23, the pin table of the header: port and bit number of the
output of each servo. -/
def servoPin : Nat → Port × Nat
  | 0 => (Port.D, 0)
  | 1 => (Port.D, 1)
  | 2 => (Port.A, 1)
  | 3 => (Port.A, 0)
  | 4 => (Port.D, 2)
  | 5 => (Port.D, 3)
  | 6 => (Port.D, 4)
  | 7 => (Port.D, 5)
  | 8 => (Port.D, 6)
  | _ => (Port.B, 0)

/-- The output register of a port. -/
def portReg (s : State) : Port → Nat
  | Port.A => s.PORTA
  | Port.B => s.PORTB
  | Port.D => s.PORTD

/-- Level of the output pin of servo `c`. -/
def pinHigh (s : State) (c : Nat) : Bool :=
  (portReg s (servoPin c).1).testBit (servoPin c).2

/-- Line 29: the activity led hangs on PB6 and is low active. -/
def ledOn (s : State) : Bool := !s.PORTB.testBit 6

/-- Level of the address input pin `PBi` as read in `pinb`. -/
def pinBit (pinb i : Nat) : Nat := (pinb >>> i) % 2

/-- Lines 24-27 and 33-37 of the header: the 7-bit device address, with the
three constants as bits 6..4 and the input pins PB4..PB1 as bits 3..0. -/
def deviceAddress (cfg : Config) (pinb : Nat) : Nat :=
  64 * cfg.b6 + 32 * cfg.b5 + 16 * cfg.b4 +
    8 * pinBit pinb 4 + 4 * pinBit pinb 3 + 2 * pinBit pinb 2 + pinBit pinb 1

/-! ## Bus traffic as seen by `main` -/

/-- The reads of lines 162-180 for a start condition followed by the address
byte `a`; `pinb` is the level of port B while both bus lines are low. -/
def addressPolls (pinb a : Nat) : List Event :=
  [ Event.poll ⟨1 <<< USISIF, 0, pinb⟩,
    Event.poll ⟨1 <<< USISIF, 0, pinb⟩,
    Event.poll ⟨1 <<< USISIF, 0, pinb⟩,
    Event.poll ⟨1 <<< USIOIF, a, pinb⟩,
    Event.poll ⟨1 <<< USIOIF, a, pinb⟩ ]

/-- The read of line 195 or 218 that finds the acknowledge bit clocked out. -/
def ackPoll (pinb : Nat) : Event := Event.poll ⟨1 <<< USIOIF, 0, pinb⟩

/-- The reads of lines 206, 209-212 and 218 for one data byte `b`. -/
def bytePolls (pinb b : Nat) : List Event :=
  [ Event.poll ⟨1 <<< USIOIF, b, pinb⟩,
    Event.poll ⟨1 <<< USIOIF, b, pinb⟩,
    ackPoll pinb ]

/-- The reads of the data bytes `bs`, one after the other. -/
def dataPolls (pinb : Nat) : List Nat → List Event
  | [] => []
  | b :: bs => bytePolls pinb b ++ dataPolls pinb bs

/-- The reads of lines 206 and 209 that find a stop condition. -/
def stopPolls (pinb : Nat) : List Event :=
  [ Event.poll ⟨1 <<< USIPF, 0, pinb ||| 160⟩,
    Event.poll ⟨1 <<< USIPF, 0, pinb ||| 160⟩ ]

/-- A whole transaction: start, address byte `a`, acknowledge, the data bytes
`bs` with their acknowledges, stop. -/
def transaction (pinb a : Nat) (bs : List Nat) : List Event :=
  addressPolls pinb a ++ ackPoll pinb :: (dataPolls pinb bs ++ stopPolls pinb)

/-- The cursor values at the overflow events of a run, in order: the pairs
`(k, k+5)` that these events serve. -/
def servedPairs (cfg : Config) (s : State) : List Event → List Nat
  | [] => []
  | Event.ovf :: evs => s.loop :: servedPairs cfg (TIMER0_OVF_vect s) evs
  | e :: evs => servedPairs cfg (step cfg s e) evs

/-- Number of overflow events in a list of events. -/
def countOvf (evs : List Event) : Nat := evs.count Event.ovf

/-- Whether the event is the address check of lines 180-185 finding a byte
that line 185 accepts. -/
def isMatch (cfg : Config) (s : State) : Event → Bool
  | Event.poll hw =>
      decide (s.pc = Pc.checkAddr ∧ hw.USISR &&& (1 <<< USIOIF) ≠ 0 ∧
        (hw.USIDR = 0 ∨ hw.USIDR = myAddress cfg hw.PINB))
  | _ => false

/-- Number of accepted address bytes in a run. -/
def addressMatches (cfg : Config) (s : State) : List Event → Nat
  | [] => 0
  | e :: evs => (if isMatch cfg s e then 1 else 0) + addressMatches cfg (step cfg s e) evs

/-- Line 188: `PORTB &= ~64`. -/
def ledSwitchOn (s : State) : State := { s with PORTB := clr s.PORTB 64 }

/-- Line 189: `ledTimeout=20`. -/
def ledArm (s : State) : State := { s with ledTimeout := 20 }

/-- Lines 188-194 of an accepted address byte when the interrupts `irqs` are
served between line 188 and line 189; interrupts are enabled from line 148
on and `main` never disables them. -/
def acceptSplit (cfg : Config) (s : State) (irqs : List Event) : State :=
  { sendAck (ledArm (run cfg (ledSwitchOn s) irqs)) with pc := Pc.waitAddrAck }

/-- Whether the event is the statement of line 212 storing a data byte. -/
def isStore (s : State) : Event → Bool
  | Event.poll hw =>
      match s.pc with
      | Pc.checkData _ => decide (hw.USISR &&& (1 <<< USIOIF) ≠ 0)
      | _ => false
  | _ => false

/-- Number of data bytes stored in a run. -/
def dataStores (cfg : Config) (s : State) : List Event → Nat
  | [] => 0
  | e :: evs => (if isStore s e then 1 else 0) + dataStores cfg (step cfg s e) evs

/-- The indices at which an event reads or writes `servo`: lines 98, 107, 121
and 122 for the overflow interrupt, line 212 for the store of a data byte. -/
def indicesUsed (s : State) : Event → List Nat
  | Event.ovf => [s.loop, s.loop + 5, nextLoop s.loop, nextLoop s.loop + 5]
  | Event.poll hw =>
      match s.pc with
      | Pc.checkData channel =>
          if hw.USISR &&& (1 <<< USIOIF) ≠ 0 then [channel] else []
      | _ => []
  | _ => []

/-- Whether an event is a statement of `main`. -/
def Event.isPoll : Event → Bool
  | Event.poll _ => true
  | _ => false


/-! ## Bits of a register -/

theorem testBit_or_two_pow (r k i : Nat) :
    (r ||| 2 ^ k).testBit i = (r.testBit i || decide (k = i)) := by
  rw [Nat.testBit_or, Nat.testBit_two_pow]

theorem testBit_clr_two_pow (r k i : Nat) (hk : k < 8) :
    (clr r (2 ^ k)).testBit i = (r.testBit i && (decide (i < 8) && !decide (k = i))) := by
  unfold clr
  rw [Nat.testBit_and, Nat.testBit_xor, Nat.testBit_two_pow,
    show (255 : Nat) = 2 ^ 8 - 1 from rfl, Nat.testBit_two_pow_sub_one]
  by_cases h1 : i < 8 <;> by_cases h2 : k = i <;> simp [h1, h2]
  omega

theorem testBit_or_1 (r i : Nat) : (r ||| 1).testBit i = (r.testBit i || decide (0 = i)) :=
  testBit_or_two_pow r 0 i
theorem testBit_or_2 (r i : Nat) : (r ||| 2).testBit i = (r.testBit i || decide (1 = i)) :=
  testBit_or_two_pow r 1 i
theorem testBit_or_4 (r i : Nat) : (r ||| 4).testBit i = (r.testBit i || decide (2 = i)) :=
  testBit_or_two_pow r 2 i
theorem testBit_or_8 (r i : Nat) : (r ||| 8).testBit i = (r.testBit i || decide (3 = i)) :=
  testBit_or_two_pow r 3 i
theorem testBit_or_16 (r i : Nat) : (r ||| 16).testBit i = (r.testBit i || decide (4 = i)) :=
  testBit_or_two_pow r 4 i
theorem testBit_or_32 (r i : Nat) : (r ||| 32).testBit i = (r.testBit i || decide (5 = i)) :=
  testBit_or_two_pow r 5 i
theorem testBit_or_64 (r i : Nat) : (r ||| 64).testBit i = (r.testBit i || decide (6 = i)) :=
  testBit_or_two_pow r 6 i

theorem testBit_clr_1 (r i : Nat) :
    (clr r 1).testBit i = (r.testBit i && (decide (i < 8) && !decide (0 = i))) :=
  testBit_clr_two_pow r 0 i (by decide)
theorem testBit_clr_2 (r i : Nat) :
    (clr r 2).testBit i = (r.testBit i && (decide (i < 8) && !decide (1 = i))) :=
  testBit_clr_two_pow r 1 i (by decide)
theorem testBit_clr_4 (r i : Nat) :
    (clr r 4).testBit i = (r.testBit i && (decide (i < 8) && !decide (2 = i))) :=
  testBit_clr_two_pow r 2 i (by decide)
theorem testBit_clr_8 (r i : Nat) :
    (clr r 8).testBit i = (r.testBit i && (decide (i < 8) && !decide (3 = i))) :=
  testBit_clr_two_pow r 3 i (by decide)
theorem testBit_clr_16 (r i : Nat) :
    (clr r 16).testBit i = (r.testBit i && (decide (i < 8) && !decide (4 = i))) :=
  testBit_clr_two_pow r 4 i (by decide)
theorem testBit_clr_32 (r i : Nat) :
    (clr r 32).testBit i = (r.testBit i && (decide (i < 8) && !decide (5 = i))) :=
  testBit_clr_two_pow r 5 i (by decide)
theorem testBit_clr_64 (r i : Nat) :
    (clr r 64).testBit i = (r.testBit i && (decide (i < 8) && !decide (6 = i))) :=
  testBit_clr_two_pow r 6 i (by decide)
theorem testBit_clr_128 (r i : Nat) :
    (clr r 128).testBit i = (r.testBit i && (decide (i < 8) && !decide (7 = i))) :=
  testBit_clr_two_pow r 7 i (by decide)

/-! ## The address byte -/

theorem and_30_eq (p : Nat) : p &&& 30 = (p % 32) &&& 30 := by
  have h : (p &&& 30) = (p &&& (2 ^ 5 - 1)) &&& 30 := by
    rw [Nat.and_assoc]; rfl
  rw [h, Nat.and_pow_two_sub_one_eq_mod]

theorem pinBit_mod (p i : Nat) (hi : i ≤ 4) : pinBit p i = pinBit (p % 32) i := by
  unfold pinBit
  rw [Nat.shiftRight_eq_div_pow, Nat.shiftRight_eq_div_pow]
  interval_cases i <;> simp <;> omega

theorem myAddress_small :
    ∀ b6 < 2, ∀ b5 < 2, ∀ b4 < 2, ∀ r < 32,
      myAddress ⟨b4, b5, b6⟩ r = 2 * deviceAddress ⟨b4, b5, b6⟩ r := by
  decide

/-- Line 184 computes the 7-bit device address shifted left by one bit. -/
theorem myAddress_eq (cfg : Config) (pinb : Nat)
    (h4 : cfg.b4 ≤ 1) (h5 : cfg.b5 ≤ 1) (h6 : cfg.b6 ≤ 1) :
    myAddress cfg pinb = 2 * deviceAddress cfg pinb := by
  have h := myAddress_small cfg.b6 (by omega) cfg.b5 (by omega) cfg.b4 (by omega)
    (pinb % 32) (Nat.mod_lt _ (by decide))
  have e1 : myAddress cfg pinb = myAddress cfg (pinb % 32) := by
    unfold myAddress; rw [and_30_eq]
  have e2 : deviceAddress cfg pinb = deviceAddress cfg (pinb % 32) := by
    unfold deviceAddress
    rw [pinBit_mod pinb 4 (by decide), pinBit_mod pinb 3 (by decide),
      pinBit_mod pinb 2 (by decide), pinBit_mod pinb 1 (by decide)]
  rw [e1, e2]; exact h


/-! ## The statements of `main`, one by one -/

theorem mainStep_waitStart (cfg : Config) (s : State) (hw : Hw) (hpc : s.pc = Pc.waitStart) :
    mainStep cfg s hw =
      if hw.USISR &&& (1 <<< USISIF) = 0 then s else { s with pc := Pc.waitStartEnd } := by
  simp only [mainStep, hpc]

theorem mainStep_waitStartEnd (cfg : Config) (s : State) (hw : Hw)
    (hpc : s.pc = Pc.waitStartEnd) :
    mainStep cfg s hw =
      if hw.PINB &&& 128 ≠ 0 ∧ hw.PINB &&& 32 = 0 then s
      else { s with pc := Pc.checkStop } := by
  simp only [mainStep, hpc]

theorem mainStep_checkStop (cfg : Config) (s : State) (hw : Hw) (hpc : s.pc = Pc.checkStop) :
    mainStep cfg s hw =
      if hw.PINB &&& 32 ≠ 0 then { s with pc := Pc.halted }
      else { s with pc := Pc.waitAddr } := by
  simp only [mainStep, hpc]

theorem mainStep_waitAddr (cfg : Config) (s : State) (hw : Hw) (hpc : s.pc = Pc.waitAddr) :
    mainStep cfg s hw =
      if hw.USISR &&& ((1 <<< USIOIF) ||| (1 <<< USIPF)) = 0 then s
      else { s with pc := Pc.checkAddr } := by
  simp only [mainStep, hpc]

theorem mainStep_checkAddr (cfg : Config) (s : State) (hw : Hw) (hpc : s.pc = Pc.checkAddr) :
    mainStep cfg s hw =
      if hw.USISR &&& (1 <<< USIOIF) ≠ 0 then
        if hw.USIDR = 0 ∨ hw.USIDR = myAddress cfg hw.PINB then
          { sendAck { s with PORTB := clr s.PORTB 64, ledTimeout := 20 } with
            pc := Pc.waitAddrAck }
        else loopTop s
      else loopTop s := by
  simp only [mainStep, hpc]

theorem mainStep_waitAddrAck (cfg : Config) (s : State) (hw : Hw)
    (hpc : s.pc = Pc.waitAddrAck) :
    mainStep cfg s hw =
      if hw.USISR &&& (1 <<< USIOIF) = 0 then s
      else forTest { s with DDRB := clr s.DDRB 32 } 0 := by
  simp only [mainStep, hpc]

theorem mainStep_waitData (cfg : Config) (s : State) (hw : Hw) (c : Nat)
    (hpc : s.pc = Pc.waitData c) :
    mainStep cfg s hw =
      if hw.USISR &&& ((1 <<< USIOIF) ||| (1 <<< USIPF)) = 0 then s
      else { s with pc := Pc.checkData c } := by
  simp only [mainStep, hpc]

theorem mainStep_checkData (cfg : Config) (s : State) (hw : Hw) (c : Nat)
    (hpc : s.pc = Pc.checkData c) :
    mainStep cfg s hw =
      if hw.USISR &&& (1 <<< USIOIF) ≠ 0 then
        { sendAck { s with servo := s.servo.set c (hw.USIDR % 256) } with
          pc := Pc.waitDataAck c }
      else loopTop s := by
  simp only [mainStep, hpc]

theorem mainStep_waitDataAck (cfg : Config) (s : State) (hw : Hw) (c : Nat)
    (hpc : s.pc = Pc.waitDataAck c) :
    mainStep cfg s hw =
      if hw.USISR &&& (1 <<< USIOIF) = 0 then s
      else forTest { s with DDRB := clr s.DDRB 32 } ((c + 1) % 256) := by
  simp only [mainStep, hpc]

theorem mainStep_halted (cfg : Config) (s : State) (hw : Hw) (hpc : s.pc = Pc.halted) :
    mainStep cfg s hw = s := by
  simp only [mainStep, hpc]

/-! ## The address check (lines 180-196) -/

/-- C2: at the address check with a byte received, the handler accepts (goes
on to wait for its acknowledge bit, having started the acknowledge sequence
and switched SDA to output) exactly when the received byte is 0 or equals the
address byte of line 184, which is the 7-bit device address shifted left by
one bit; once the acknowledge bit is out the data phase starts at channel 0;
the byte 0 is accepted whatever the configuration and the address pins are. -/
theorem address_accept_iff (cfg : Config) (s : State) (hw : Hw)
    (hpc : s.pc = Pc.checkAddr) (hoif : hw.USISR &&& (1 <<< USIOIF) ≠ 0) :
    (((mainStep cfg s hw).pc = Pc.waitAddrAck ∧ (mainStep cfg s hw).acks = s.acks + 1 ∧
        (mainStep cfg s hw).DDRB.testBit 5 = true) ↔
      (hw.USIDR = 0 ∨ hw.USIDR = myAddress cfg hw.PINB)) ∧
    (cfg.b4 ≤ 1 → cfg.b5 ≤ 1 → cfg.b6 ≤ 1 →
      myAddress cfg hw.PINB = deviceAddress cfg hw.PINB <<< 1) ∧
    ((mainStep cfg s hw).pc = Pc.waitAddrAck →
      ∀ hw2 : Hw, hw2.USISR &&& (1 <<< USIOIF) ≠ 0 →
        (mainStep cfg (mainStep cfg s hw) hw2).pc = Pc.waitData 0) ∧
    (¬ (hw.USIDR = 0 ∨ hw.USIDR = myAddress cfg hw.PINB) →
      (mainStep cfg s hw).pc = Pc.waitStart ∧ (mainStep cfg s hw).acks = s.acks) ∧
    (hw.USIDR = 0 → (mainStep cfg s hw).pc = Pc.waitAddrAck) := by
  have hstep := mainStep_checkAddr cfg s hw hpc
  rw [if_pos hoif] at hstep
  refine ⟨?_, ?_, ?_, ?_, ?_⟩
  · by_cases h : hw.USIDR = 0 ∨ hw.USIDR = myAddress cfg hw.PINB
    · rw [hstep, if_pos h]
      simp [sendAck, h, testBit_or_32, -Nat.testBit_or]
    · rw [hstep, if_neg h]
      simp [loopTop, h]
  · intro h4 h5 h6
    rw [myAddress_eq cfg hw.PINB h4 h5 h6, Nat.shiftLeft_eq]
    omega
  · intro hacc hw2 h2
    rw [mainStep_waitAddrAck cfg _ hw2 hacc, if_neg h2]
    simp [forTest]
  · intro h
    rw [hstep, if_neg h]
    simp [loopTop]
  · intro h
    rw [hstep, if_pos (Or.inl h)]

/-- Witness of C2: the address byte 0x1E at the address check of the source
configuration with all address pins high. -/
theorem address_accept_iff_witness :
    (((mainStep sourceConfig { init with pc := Pc.checkAddr } ⟨64, 30, 30⟩).pc = Pc.waitAddrAck ∧
        (mainStep sourceConfig { init with pc := Pc.checkAddr } ⟨64, 30, 30⟩).acks = 0 + 1 ∧
        (mainStep sourceConfig { init with pc := Pc.checkAddr } ⟨64, 30, 30⟩).DDRB.testBit 5
          = true) ↔
      ((30 : Nat) = 0 ∨ 30 = myAddress sourceConfig 30)) :=
  (address_accept_iff sourceConfig { init with pc := Pc.checkAddr } ⟨64, 30, 30⟩ rfl
    (by decide)).1


/-! ## Flags of `USISR` -/

theorem sif_sif : (1 <<< USISIF) &&& (1 <<< USISIF) ≠ 0 := by decide
theorem oif_sif : (1 <<< USIOIF) &&& (1 <<< USISIF) = 0 := by decide
theorem pf_sif : (1 <<< USIPF) &&& (1 <<< USISIF) = 0 := by decide
theorem oif_oif : (1 <<< USIOIF) &&& (1 <<< USIOIF) ≠ 0 := by decide
theorem pf_oif : (1 <<< USIPF) &&& (1 <<< USIOIF) = 0 := by decide
theorem oif_wait : (1 <<< USIOIF) &&& ((1 <<< USIOIF) ||| (1 <<< USIPF)) ≠ 0 := by decide
theorem pf_wait : (1 <<< USIPF) &&& ((1 <<< USIOIF) ||| (1 <<< USIPF)) ≠ 0 := by decide

/-! ## Runs -/

theorem run_nil (cfg : Config) (s : State) : run cfg s [] = s := rfl

theorem run_cons (cfg : Config) (s : State) (e : Event) (evs : List Event) :
    run cfg s (e :: evs) = run cfg (step cfg s e) evs := rfl

theorem run_append (cfg : Config) (s : State) (xs ys : List Event) :
    run cfg s (xs ++ ys) = run cfg (run cfg s xs) ys := by
  simp [run, List.foldl_append]

/-- The reads of lines 162-177 of a transaction bring `main` from the wait for
a start condition to the address check, changing nothing else. -/
theorem run_addressPolls (cfg : Config) (s : State) (pinb a : Nat)
    (hpc : s.pc = Pc.waitStart) (hp : pinb &&& 160 = 0) :
    run cfg s (addressPolls pinb a) =
      mainStep cfg { s with pc := Pc.checkAddr } ⟨1 <<< USIOIF, a, pinb⟩ := by
  have h128 : pinb &&& 128 = 0 := by
    have : pinb &&& 128 = (pinb &&& 160) &&& 128 := by rw [Nat.and_assoc]; rfl
    rw [this, hp]; rfl
  have h32 : pinb &&& 32 = 0 := by
    have : pinb &&& 32 = (pinb &&& 160) &&& 32 := by rw [Nat.and_assoc]; rfl
    rw [this, hp]; rfl
  simp only [addressPolls, run_cons, run_nil, step]
  rw [mainStep_waitStart cfg s _ hpc, if_neg sif_sif]
  rw [mainStep_waitStartEnd cfg { s with pc := Pc.waitStartEnd } _ rfl,
    if_neg (by simp [h128])]
  rw [mainStep_checkStop cfg { s with pc := Pc.checkStop } _ rfl, if_neg (by simp [h32])]
  rw [mainStep_waitAddr cfg { s with pc := Pc.waitAddr } _ rfl, if_neg oif_wait]

/-- While `main` waits for a start condition, reads that do not show the start
flag change nothing. -/
theorem run_waitStart_idle (cfg : Config) (evs : List Event) :
    ∀ s : State, s.pc = Pc.waitStart →
      (∀ e ∈ evs, ∃ hw : Hw, e = Event.poll hw ∧ hw.USISR &&& (1 <<< USISIF) = 0) →
      run cfg s evs = s := by
  induction evs with
  | nil => intro s _ _; rfl
  | cons e evs ih =>
    intro s hpc h
    obtain ⟨hw, he, hf⟩ := h e (List.mem_cons_self _ _)
    have hs : step cfg s e = s := by
      rw [he]
      show mainStep cfg s hw = s
      rw [mainStep_waitStart cfg s hw hpc, if_pos hf]
    rw [run_cons, hs]
    exact ih s hpc (fun e2 h2 => h e2 (List.mem_cons_of_mem _ h2))

theorem dataPolls_noStart (pinb : Nat) (bs : List Nat) :
    ∀ e ∈ dataPolls pinb bs, ∃ hw : Hw, e = Event.poll hw ∧ hw.USISR &&& (1 <<< USISIF) = 0 := by
  induction bs with
  | nil => intro e he; simp [dataPolls] at he
  | cons b bs ih =>
    intro e he
    simp only [dataPolls, bytePolls, ackPoll, List.cons_append, List.nil_append,
      List.mem_cons] at he
    rcases he with h | h | h | h
    · exact ⟨_, h, oif_sif⟩
    · exact ⟨_, h, oif_sif⟩
    · exact ⟨_, h, oif_sif⟩
    · exact ih e h

theorem stopPolls_noStart (pinb : Nat) :
    ∀ e ∈ stopPolls pinb, ∃ hw : Hw, e = Event.poll hw ∧ hw.USISR &&& (1 <<< USISIF) = 0 := by
  intro e he
  simp only [stopPolls, List.mem_cons, List.mem_singleton, List.not_mem_nil, or_false] at he
  rcases he with h | h
  · exact ⟨_, h, pf_sif⟩
  · exact ⟨_, h, pf_sif⟩

/-- C3: an address byte that is neither 0 nor the address byte of line 184 is
ignored.  At the address check no acknowledge sequence is started, SDA stays
an input, the ten servo values, the led timeout and port B (the indicator) are
unchanged and `main` waits for the next start condition; the same holds for
the whole transaction, whose data bytes and stop condition are read while
`main` waits for a start condition. -/
theorem address_reject (cfg : Config) (s : State) (hw : Hw)
    (hpc : s.pc = Pc.checkAddr) (h0 : hw.USIDR ≠ 0) (hne : hw.USIDR ≠ myAddress cfg hw.PINB) :
    ((mainStep cfg s hw).acks = s.acks ∧ (mainStep cfg s hw).DDRB.testBit 5 = false ∧
      (mainStep cfg s hw).servo = s.servo ∧ (mainStep cfg s hw).ledTimeout = s.ledTimeout ∧
      (mainStep cfg s hw).PORTB = s.PORTB ∧ ledOn (mainStep cfg s hw) = ledOn s ∧
      (mainStep cfg s hw).pc = Pc.waitStart) ∧
    (hw.PINB &&& 160 = 0 → ∀ bs : List Nat,
      run cfg { s with pc := Pc.waitStart } (transaction hw.PINB hw.USIDR bs) =
        loopTop s) := by
  have hrej : ¬ (hw.USIDR = 0 ∨ hw.USIDR = myAddress cfg hw.PINB) := by
    rintro (h | h)
    · exact h0 h
    · exact hne h
  have hstep : ∀ (t : State) (u : Nat), t.pc = Pc.checkAddr →
      mainStep cfg t ⟨u, hw.USIDR, hw.PINB⟩ = loopTop t := by
    intro t u ht
    rw [mainStep_checkAddr cfg t _ ht]
    by_cases hf : u &&& (1 <<< USIOIF) ≠ 0
    · rw [if_pos hf, if_neg hrej]
    · rw [if_neg hf]
  have hs : mainStep cfg s hw = loopTop s := hstep s hw.USISR hpc
  refine ⟨?_, ?_⟩
  · rw [hs]
    simp [loopTop, ledOn, testBit_clr_32]
  · intro hp bs
    have h1 := run_addressPolls cfg { s with pc := Pc.waitStart } hw.PINB hw.USIDR rfl hp
    rw [transaction, run_append, h1, hstep _ _ rfl]
    have h2 : loopTop { s with pc := Pc.checkAddr } = loopTop s := rfl
    rw [h2]
    apply run_waitStart_idle cfg _ (loopTop s) rfl
    intro e he
    simp only [List.mem_cons, List.mem_append] at he
    rcases he with h | h | h
    · exact ⟨_, h, oif_sif⟩
    · exact dataPolls_noStart _ _ e h
    · exact stopPolls_noStart _ e h

/-- Witness of C3: the address byte 0x20 is ignored by the source
configuration with all address pins high. -/
theorem address_reject_witness :
    ({ init with pc := Pc.checkAddr } : State).pc = Pc.checkAddr ∧ (0x20 : Nat) ≠ 0 ∧
      (0x20 : Nat) ≠ myAddress sourceConfig 30 ∧
      (mainStep sourceConfig { init with pc := Pc.checkAddr } ⟨64, 0x20, 30⟩).servo =
        init.servo ∧
      (mainStep sourceConfig { init with pc := Pc.checkAddr } ⟨64, 0x20, 30⟩).pc =
        Pc.waitStart :=
  ⟨rfl, by decide, by decide,
    (address_reject sourceConfig { init with pc := Pc.checkAddr } ⟨64, 0x20, 30⟩ rfl
      (by decide) (by decide)).1.2.2.1,
    (address_reject sourceConfig { init with pc := Pc.checkAddr } ⟨64, 0x20, 30⟩ rfl
      (by decide) (by decide)).1.2.2.2.2.2.2⟩


/-- C10: the byte that line 185 compares with is twice the 7-bit device
address (constants ADR_b6, ADR_b5, ADR_b4 as bits 6..4, pins PB4..PB1 as bits
3..0), so its read/write bit is 0 and its upper seven bits are the device
address; with the constants of the source and the four address pins high it
is 0x1E, and the address check accepts the byte 0x1E then. -/
theorem myAddress_formula (cfg : Config) (pinb : Nat)
    (h4 : cfg.b4 ≤ 1) (h5 : cfg.b5 ≤ 1) (h6 : cfg.b6 ≤ 1) :
    myAddress cfg pinb =
        2 * (64 * cfg.b6 + 32 * cfg.b5 + 16 * cfg.b4 + 8 * pinBit pinb 4 + 4 * pinBit pinb 3 +
          2 * pinBit pinb 2 + pinBit pinb 1) ∧
      myAddress cfg pinb = deviceAddress cfg pinb <<< 1 ∧
      myAddress cfg pinb % 2 = 0 ∧
      myAddress cfg pinb / 2 = deviceAddress cfg pinb ∧
      deviceAddress cfg pinb < 128 ∧
      (pinBit pinb 4 = 1 → pinBit pinb 3 = 1 → pinBit pinb 2 = 1 → pinBit pinb 1 = 1 →
        myAddress sourceConfig pinb = 0x1E ∧
        ∀ (s : State) (u : Nat), s.pc = Pc.checkAddr → u &&& (1 <<< USIOIF) ≠ 0 →
          (mainStep sourceConfig s ⟨u, 0x1E, pinb⟩).pc = Pc.waitAddrAck) := by
  have h := myAddress_eq cfg pinb h4 h5 h6
  have hb : ∀ i, pinBit pinb i < 2 := fun i => Nat.mod_lt _ (by decide)
  have hb1 := hb 1
  have hb2 := hb 2
  have hb3 := hb 3
  have hb4 := hb 4
  refine ⟨?_, ?_, ?_, ?_, ?_, ?_⟩
  · rw [h]; rfl
  · rw [h, Nat.shiftLeft_eq]; omega
  · rw [h]; omega
  · rw [h]; omega
  · unfold deviceAddress; omega
  · intro p4 p3 p2 p1
    have hs : myAddress sourceConfig pinb = 0x1E := by
      rw [myAddress_eq sourceConfig pinb (by decide) (by decide) (by decide)]
      simp only [deviceAddress, p4, p3, p2, p1, sourceConfig, ADR_b4, ADR_b5, ADR_b6]
    refine ⟨hs, ?_⟩
    intro s u hpc hu
    rw [mainStep_checkAddr sourceConfig s _ hpc, if_pos hu, if_pos (Or.inr hs.symm)]

/-- Witness of C10: the source configuration with all four address pins high. -/
theorem myAddress_formula_witness :
    sourceConfig.b4 ≤ 1 ∧ sourceConfig.b5 ≤ 1 ∧ sourceConfig.b6 ≤ 1 ∧
      myAddress sourceConfig 30 =
        2 * (64 * sourceConfig.b6 + 32 * sourceConfig.b5 + 16 * sourceConfig.b4 +
          8 * pinBit 30 4 + 4 * pinBit 30 3 + 2 * pinBit 30 2 + pinBit 30 1) :=
  ⟨by decide, by decide, by decide,
    (myAddress_formula sourceConfig 30 (by decide) (by decide) (by decide)).1⟩

/-! ## The round-robin cursor (lines 95, 118-122) -/

theorem nextLoop_le (l : Nat) : nextLoop l ≤ 4 := by
  unfold nextLoop
  split <;> omega

theorem nextLoop_eq (l : Nat) (h : l ≤ 4) : nextLoop l = (l + 1) % 5 := by
  unfold nextLoop
  interval_cases l <;> rfl

theorem raiseFirst_loop (s : State) : (raiseFirst s).loop = s.loop := by
  unfold raiseFirst
  split
  · split <;> rfl
  · rfl

theorem raiseSecond_loop (s : State) : (raiseSecond s).loop = s.loop := by
  unfold raiseSecond
  split
  · split <;> rfl
  · rfl

theorem raiseFirst_servo (s : State) : (raiseFirst s).servo = s.servo := by
  unfold raiseFirst
  split
  · split <;> rfl
  · rfl

theorem raiseSecond_servo (s : State) : (raiseSecond s).servo = s.servo := by
  unfold raiseSecond
  split
  · split <;> rfl
  · rfl

theorem ledTick_loop (s : State) : (ledTick s).loop = s.loop := by
  unfold ledTick
  split
  · split <;> rfl
  · rfl

theorem ledTick_servo (s : State) : (ledTick s).servo = s.servo := by
  unfold ledTick
  split
  · split <;> rfl
  · rfl

theorem ledTick_OCR0A (s : State) : (ledTick s).OCR0A = s.OCR0A := by
  unfold ledTick
  split
  · split <;> rfl
  · rfl

theorem ledTick_OCR0B (s : State) : (ledTick s).OCR0B = s.OCR0B := by
  unfold ledTick
  split
  · split <;> rfl
  · rfl

theorem ovf_loop (s : State) : (TIMER0_OVF_vect s).loop = nextLoop s.loop := by
  unfold TIMER0_OVF_vect
  rw [ledTick_loop]
  show nextLoop (raiseSecond (raiseFirst s)).loop = _
  rw [raiseSecond_loop, raiseFirst_loop]

theorem ovf_servo (s : State) : (TIMER0_OVF_vect s).servo = s.servo := by
  unfold TIMER0_OVF_vect
  rw [ledTick_servo]
  show (raiseSecond (raiseFirst s)).servo = _
  rw [raiseSecond_servo, raiseFirst_servo]

theorem forTest_loop (s : State) (c : Nat) : (forTest s c).loop = s.loop := by
  unfold forTest
  split <;> rfl

theorem mainStep_loop (cfg : Config) (s : State) (hw : Hw) :
    (mainStep cfg s hw).loop = s.loop := by
  unfold mainStep
  split <;> (try split) <;> (try split) <;> first | rfl | exact forTest_loop _ _

theorem step_loop_le (cfg : Config) (s : State) (e : Event) (h : s.loop ≤ 4) :
    (step cfg s e).loop ≤ 4 := by
  cases e with
  | poll hw => show (mainStep cfg s hw).loop ≤ 4; rw [mainStep_loop]; exact h
  | ovf => show (TIMER0_OVF_vect s).loop ≤ 4; rw [ovf_loop]; exact nextLoop_le _
  | compA => exact h
  | compB => exact h

theorem run_loop_le (cfg : Config) (evs : List Event) :
    ∀ s : State, s.loop ≤ 4 → (run cfg s evs).loop ≤ 4 := by
  induction evs with
  | nil => intro s h; exact h
  | cons e evs ih => intro s h; rw [run_cons]; exact ih _ (step_loop_le cfg s e h)

theorem step_loop_of_ne_ovf (cfg : Config) (s : State) (e : Event) (h : e ≠ Event.ovf) :
    (step cfg s e).loop = s.loop := by
  cases e with
  | poll hw => exact mainStep_loop cfg s hw
  | ovf => exact absurd rfl h
  | compA => rfl
  | compB => rfl

theorem servedPairs_eq (cfg : Config) (evs : List Event) :
    ∀ s : State, s.loop ≤ 4 →
      servedPairs cfg s evs =
        (List.range (countOvf evs)).map (fun j => (s.loop + j) % 5) := by
  induction evs with
  | nil => intro s _; rfl
  | cons e evs ih =>
    intro s h
    by_cases he : e = Event.ovf
    · subst he
      have h1 : (TIMER0_OVF_vect s).loop = (s.loop + 1) % 5 := by
        rw [ovf_loop, nextLoop_eq _ h]
      have h2 : (TIMER0_OVF_vect s).loop ≤ 4 := by rw [ovf_loop]; exact nextLoop_le _
      have hc : countOvf (Event.ovf :: evs) = countOvf evs + 1 := by
        simp [countOvf]
      rw [servedPairs, ih _ h2, hc, List.range_succ_eq_map, List.map_cons, List.map_map, h1]
      have hs : s.loop % 5 = s.loop := Nat.mod_eq_of_lt (by omega)
      simp only [Nat.add_zero, hs]
      congr 1
      apply List.map_congr_left
      intro j _
      simp only [Function.comp, Nat.succ_eq_add_one]
      omega
    · have hc : countOvf (e :: evs) = countOvf evs := by
        simp only [countOvf]
        exact List.count_cons_of_ne (Ne.symm he) evs
      have hl := step_loop_of_ne_ovf cfg s e he
      have hsp : servedPairs cfg s (e :: evs) = servedPairs cfg (step cfg s e) evs := by
        cases e with
        | poll hw => rfl
        | ovf => exact absurd rfl he
        | compA => rfl
        | compB => rfl
      rw [hsp, ih _ (by rw [hl]; exact h), hc, hl]


/-- C5: the cursor is 0 at boot and at most 4 after any run; an overflow event
replaces the cursor `k` by `(k+1) mod 5` and no other event changes it; so the
overflow events of a run serve the pairs `k, k+1, ...` modulo 5, and five
consecutive ones serve each of the five pairs exactly once, in cyclic order. -/
theorem cursor_round_robin (cfg : Config) :
    boot.loop = 0 ∧ init.loop = 0 ∧
    (∀ evs : List Event, (run cfg init evs).loop ≤ 4) ∧
    (∀ s : State, s.loop ≤ 4 → (TIMER0_OVF_vect s).loop = (s.loop + 1) % 5) ∧
    (∀ (s : State) (e : Event), e ≠ Event.ovf → (step cfg s e).loop = s.loop) ∧
    (∀ (s : State) (evs : List Event), s.loop ≤ 4 → countOvf evs = 5 →
      servedPairs cfg s evs =
        [s.loop, (s.loop + 1) % 5, (s.loop + 2) % 5, (s.loop + 3) % 5, (s.loop + 4) % 5] ∧
      (run cfg s evs).loop = s.loop ∧
      List.Perm (servedPairs cfg s evs) [0, 1, 2, 3, 4]) ∧
    (∀ evs0 evs : List Event, countOvf evs = 5 →
      List.Perm (servedPairs cfg (run cfg init evs0) evs) [0, 1, 2, 3, 4]) := by
  have hserved : ∀ (s : State) (evs : List Event), s.loop ≤ 4 → countOvf evs = 5 →
      servedPairs cfg s evs =
        [s.loop, (s.loop + 1) % 5, (s.loop + 2) % 5, (s.loop + 3) % 5, (s.loop + 4) % 5] := by
    intro s evs hs hc
    rw [servedPairs_eq cfg evs s hs, hc]
    have hm : s.loop % 5 = s.loop := Nat.mod_eq_of_lt (by omega)
    simp [List.range_succ, hm]
  have hperm : ∀ k : Nat, k ≤ 4 →
      List.Perm [k, (k + 1) % 5, (k + 2) % 5, (k + 3) % 5, (k + 4) % 5] [0, 1, 2, 3, 4] := by
    intro k hk
    interval_cases k <;> decide
  have hrun : ∀ (evs : List Event) (s : State), s.loop ≤ 4 →
      (run cfg s evs).loop = (s.loop + countOvf evs) % 5 := by
    intro evs
    induction evs with
    | nil => intro s hs; simp [run_nil, countOvf]; omega
    | cons e evs ih =>
      intro s hs
      rw [run_cons, ih _ (step_loop_le cfg s e hs)]
      by_cases he : e = Event.ovf
      · subst he
        have h1 : (step cfg s Event.ovf).loop = (s.loop + 1) % 5 := by
          show (TIMER0_OVF_vect s).loop = _
          rw [ovf_loop, nextLoop_eq _ hs]
        have hc : countOvf (Event.ovf :: evs) = countOvf evs + 1 := by simp [countOvf]
        rw [h1, hc]; omega
      · have hc : countOvf (e :: evs) = countOvf evs := by
          simp only [countOvf]
          exact List.count_cons_of_ne (Ne.symm he) evs
        rw [step_loop_of_ne_ovf cfg s e he, hc]
  refine ⟨rfl, rfl, ?_, ?_, ?_, ?_, ?_⟩
  · intro evs
    exact run_loop_le cfg evs init (by decide)
  · intro s hs
    rw [ovf_loop, nextLoop_eq _ hs]
  · intro s e he
    exact step_loop_of_ne_ovf cfg s e he
  · intro s evs hs hc
    refine ⟨hserved s evs hs hc, ?_, ?_⟩
    · rw [hrun evs s hs, hc]; omega
    · rw [hserved s evs hs hc]; exact hperm _ hs
  · intro evs0 evs hc
    have hs := run_loop_le cfg evs0 init (by decide)
    rw [hserved _ evs hs hc]; exact hperm _ hs

/-- Witness of C5: five overflow events, with other events in between, that
start at cursor 3. -/
theorem cursor_round_robin_witness :
    servedPairs sourceConfig { init with loop := 3 }
        [Event.ovf, Event.compA, Event.ovf, Event.compB, Event.ovf, Event.poll ⟨0, 0, 0⟩,
          Event.ovf, Event.ovf, Event.compA] =
      [3, (3 + 1) % 5, (3 + 2) % 5, (3 + 3) % 5, (3 + 4) % 5] :=
  ((cursor_round_robin sourceConfig).2.2.2.2.2.1 { init with loop := 3 } _ (by decide)
    (by decide)).1

/-! ## The pins raised by the overflow interrupt (lines 97-115) -/

theorem pinHigh_ledTick (s : State) (c : Nat) : pinHigh (ledTick s) c = pinHigh s c := by
  have hA : (ledTick s).PORTA = s.PORTA := by
    unfold ledTick; split
    · split <;> rfl
    · rfl
  have hD : (ledTick s).PORTD = s.PORTD := by
    unfold ledTick; split
    · split <;> rfl
    · rfl
  have hB : (ledTick s).PORTB.testBit 0 = s.PORTB.testBit 0 := by
    unfold ledTick; split
    · split
      · simp [testBit_or_64, -Nat.testBit_or]
      · rfl
    · rfl
  unfold pinHigh
  rcases c with _ | _ | _ | _ | _ | _ | _ | _ | _ | c <;>
    simp only [servoPin, portReg, hA, hD, hB]

theorem pinHigh_armCompare (s : State) (c : Nat) : pinHigh (armCompare s) c = pinHigh s c :=
  rfl

theorem pinHigh_raiseFirst (s : State) (c : Nat) (hk : s.loop ≤ 4) (hc : c < 10) :
    pinHigh (raiseFirst s) c =
      (pinHigh s c || (decide (c = s.loop) && decide (rd s.servo s.loop ≠ 0))) := by
  obtain ⟨k, hl⟩ : ∃ k, s.loop = k := ⟨_, rfl⟩
  rw [hl] at hk
  by_cases hz : rd s.servo k ≠ 0
  · interval_cases k <;> interval_cases c <;>
      simp [raiseFirst, hl, hz, pinHigh, servoPin, portReg, testBit_or_1, testBit_or_2,
        testBit_or_4, -Nat.testBit_or]
  · simp [raiseFirst, hl, hz]

theorem pinHigh_raiseSecond (s : State) (c : Nat) (hk : s.loop ≤ 4) (hc : c < 10) :
    pinHigh (raiseSecond s) c =
      (pinHigh s c || (decide (c = s.loop + 5) && decide (rd s.servo (s.loop + 5) ≠ 0))) := by
  obtain ⟨k, hl⟩ : ∃ k, s.loop = k := ⟨_, rfl⟩
  rw [hl] at hk
  by_cases hz : rd s.servo (k + 5) ≠ 0
  · interval_cases k <;> interval_cases c <;>
      simp [raiseSecond, hl, hz, pinHigh, servoPin, portReg, testBit_or_1, testBit_or_8,
        testBit_or_16, testBit_or_32, testBit_or_64, -Nat.testBit_or]
  · simp [raiseSecond, hl, hz]

/-- The pins after an overflow event. -/
theorem pinHigh_ovf (s : State) (c : Nat) (hk : s.loop ≤ 4) (hc : c < 10) :
    pinHigh (TIMER0_OVF_vect s) c =
      (pinHigh s c || (decide (c = s.loop) && decide (rd s.servo s.loop ≠ 0)) ||
        (decide (c = s.loop + 5) && decide (rd s.servo (s.loop + 5) ≠ 0))) := by
  unfold TIMER0_OVF_vect
  rw [pinHigh_ledTick, pinHigh_armCompare,
    pinHigh_raiseSecond _ c (by rw [raiseFirst_loop]; exact hk) hc,
    pinHigh_raiseFirst s c hk hc, raiseFirst_loop, raiseFirst_servo]


/-- C4: an overflow event at cursor `k` (0..4) leaves the pin of servo `k`
high if `servo[k]` is not 0 and as it was if `servo[k]` is 0, likewise the
pin of servo `k+5` with `servo[k+5]`, and leaves the pins of the eight other
servos as they were; so no overflow event raises the pin of a servo whose
value is 0.  With the values 30,160,0,90,45,30,160,0,90,45 and all pins low,
the five overflow events of a frame raise servos 0 and 5, then 1 and 6, then
nothing (servos 2 and 7 are 0), then 3 and 8, then 4 and 9. -/
theorem overflow_raise (s : State) (hk : s.loop ≤ 4) :
    (rd s.servo s.loop ≠ 0 → pinHigh (TIMER0_OVF_vect s) s.loop = true) ∧
    (rd s.servo s.loop = 0 → pinHigh (TIMER0_OVF_vect s) s.loop = pinHigh s s.loop) ∧
    (rd s.servo (s.loop + 5) ≠ 0 → pinHigh (TIMER0_OVF_vect s) (s.loop + 5) = true) ∧
    (rd s.servo (s.loop + 5) = 0 →
      pinHigh (TIMER0_OVF_vect s) (s.loop + 5) = pinHigh s (s.loop + 5)) ∧
    (∀ c : Nat, c < 10 → c ≠ s.loop → c ≠ s.loop + 5 →
      pinHigh (TIMER0_OVF_vect s) c = pinHigh s c) ∧
    (∀ c : Nat, c < 10 → rd s.servo c = 0 → pinHigh (TIMER0_OVF_vect s) c = pinHigh s c) ∧
    (List.range 10).map (pinHigh (run sourceConfig
        { init with servo := [30, 160, 0, 90, 45, 30, 160, 0, 90, 45] } [Event.ovf])) =
      [true, false, false, false, false, true, false, false, false, false] ∧
    (List.range 10).map (pinHigh (run sourceConfig
        { init with servo := [30, 160, 0, 90, 45, 30, 160, 0, 90, 45] }
        [Event.ovf, Event.ovf])) =
      [true, true, false, false, false, true, true, false, false, false] ∧
    (List.range 10).map (pinHigh (run sourceConfig
        { init with servo := [30, 160, 0, 90, 45, 30, 160, 0, 90, 45] }
        [Event.ovf, Event.ovf, Event.ovf])) =
      [true, true, false, false, false, true, true, false, false, false] ∧
    (List.range 10).map (pinHigh (run sourceConfig
        { init with servo := [30, 160, 0, 90, 45, 30, 160, 0, 90, 45] }
        [Event.ovf, Event.ovf, Event.ovf, Event.ovf])) =
      [true, true, false, true, false, true, true, false, true, false] ∧
    (List.range 10).map (pinHigh (run sourceConfig
        { init with servo := [30, 160, 0, 90, 45, 30, 160, 0, 90, 45] }
        [Event.ovf, Event.ovf, Event.ovf, Event.ovf, Event.ovf])) =
      [true, true, false, true, true, true, true, false, true, true] := by
  have h := fun c hc => pinHigh_ovf s c hk hc
  refine ⟨?_, ?_, ?_, ?_, ?_, ?_, by decide, by decide, by decide, by decide, by decide⟩
  · intro hz
    rw [h _ (by omega)]
    simp [hz]
  · intro hz
    rw [h _ (by omega)]
    simp [hz]
  · intro hz
    rw [h _ (by omega)]
    simp [hz]
  · intro hz
    rw [h _ (by omega)]
    simp [hz]
  · intro c hc h1 h2
    rw [h c hc]
    simp [h1, h2]
  · intro c hc hz
    rw [h c hc]
    by_cases h1 : c = s.loop
    · subst h1; simp [hz]
    · by_cases h2 : c = s.loop + 5
      · subst h2; simp [hz]
      · simp [h1, h2]

/-- Witness of C4: cursor 2 with the values 30,160,0,90,45,30,160,0,90,45,
where servos 2 and 7 have the value 0. -/
theorem overflow_raise_witness :
    ({ init with servo := [30, 160, 0, 90, 45, 30, 160, 0, 90, 45], loop := 2 } : State).loop
        ≤ 4 ∧
      (∀ c : Nat, c < 10 →
        rd ({ init with servo := [30, 160, 0, 90, 45, 30, 160, 0, 90, 45], loop := 2 } :
          State).servo c = 0 →
        pinHigh (TIMER0_OVF_vect
          { init with servo := [30, 160, 0, 90, 45, 30, 160, 0, 90, 45], loop := 2 }) c =
        pinHigh { init with servo := [30, 160, 0, 90, 45, 30, 160, 0, 90, 45], loop := 2 } c) :=
  ⟨by decide,
    (overflow_raise { init with servo := [30, 160, 0, 90, 45, 30, 160, 0, 90, 45], loop := 2 }
      (by decide)).2.2.2.2.2.1⟩


/-! ## The compare registers (lines 117-122) -/

/-- C6: after an overflow event compare register A holds the servo value at
the advanced cursor and compare register B the one five places further, the
advanced cursor being `(k+1) mod 5` for a cursor `k` in range, hence another
pair than the one this event has served; the servo values themselves are not
changed by the event.  The pair at the advanced cursor is the one the next
overflow event serves: it raises the pin of the first (second) servo of that
pair whenever register A (B) is not 0.  With the values
30,160,0,90,45,30,160,0,90,45 and cursor 0 the registers hold 160 and 160
(servos 1 and 6), not 30 and 30. -/
theorem ovf_arms_next_pair (s : State) :
    (TIMER0_OVF_vect s).OCR0A = rd (TIMER0_OVF_vect s).servo (TIMER0_OVF_vect s).loop ∧
    (TIMER0_OVF_vect s).OCR0B =
      rd (TIMER0_OVF_vect s).servo ((TIMER0_OVF_vect s).loop + 5) ∧
    (TIMER0_OVF_vect s).servo = s.servo ∧
    (TIMER0_OVF_vect s).loop = nextLoop s.loop ∧
    (s.loop ≤ 4 →
      (TIMER0_OVF_vect s).loop = (s.loop + 1) % 5 ∧ (TIMER0_OVF_vect s).loop ≠ s.loop) ∧
    ((TIMER0_OVF_vect s).OCR0A ≠ 0 →
      pinHigh (TIMER0_OVF_vect (TIMER0_OVF_vect s)) (TIMER0_OVF_vect s).loop = true) ∧
    ((TIMER0_OVF_vect s).OCR0B ≠ 0 →
      pinHigh (TIMER0_OVF_vect (TIMER0_OVF_vect s)) ((TIMER0_OVF_vect s).loop + 5) = true) ∧
    (TIMER0_OVF_vect { init with servo := [30, 160, 0, 90, 45, 30, 160, 0, 90, 45] }).OCR0A
      = 160 ∧
    (TIMER0_OVF_vect { init with servo := [30, 160, 0, 90, 45, 30, 160, 0, 90, 45] }).OCR0B
      = 160 := by
  have hA : (TIMER0_OVF_vect s).OCR0A = rd s.servo (nextLoop s.loop) := by
    unfold TIMER0_OVF_vect
    rw [ledTick_OCR0A]
    show rd (raiseSecond (raiseFirst s)).servo (nextLoop (raiseSecond (raiseFirst s)).loop) = _
    rw [raiseSecond_loop, raiseFirst_loop, raiseSecond_servo, raiseFirst_servo]
  have hB : (TIMER0_OVF_vect s).OCR0B = rd s.servo (nextLoop s.loop + 5) := by
    unfold TIMER0_OVF_vect
    rw [ledTick_OCR0B]
    show rd (raiseSecond (raiseFirst s)).servo
      (nextLoop (raiseSecond (raiseFirst s)).loop + 5) = _
    rw [raiseSecond_loop, raiseFirst_loop, raiseSecond_servo, raiseFirst_servo]
  have hA2 : (TIMER0_OVF_vect s).OCR0A =
      rd (TIMER0_OVF_vect s).servo (TIMER0_OVF_vect s).loop := by
    rw [hA, ovf_servo, ovf_loop]
  have hB2 : (TIMER0_OVF_vect s).OCR0B =
      rd (TIMER0_OVF_vect s).servo ((TIMER0_OVF_vect s).loop + 5) := by
    rw [hB, ovf_servo, ovf_loop]
  have hle : (TIMER0_OVF_vect s).loop ≤ 4 := by rw [ovf_loop]; exact nextLoop_le _
  refine ⟨hA2, hB2, ovf_servo s, ovf_loop s, ?_, ?_, ?_, by decide, by decide⟩
  · intro hs
    rw [ovf_loop, nextLoop_eq _ hs]
    refine ⟨rfl, ?_⟩
    omega
  · intro hz
    rw [hA2] at hz
    rw [pinHigh_ovf _ _ hle (by omega)]
    simp [hz]
  · intro hz
    rw [hB2] at hz
    rw [pinHigh_ovf _ _ hle (by omega)]
    simp [hz]

/-- Witness of C6: the overflow event at cursor 4 wraps to cursor 0. -/
theorem ovf_arms_next_pair_witness :
    ({ init with loop := 4 } : State).loop ≤ 4 ∧
      (TIMER0_OVF_vect { init with loop := 4 }).loop = (4 + 1) % 5 ∧
      (TIMER0_OVF_vect { init with loop := 4 }).loop ≠ 4 :=
  ⟨by decide, (ovf_arms_next_pair { init with loop := 4 }).2.2.2.2.1 (by decide)⟩


/-! ## The activity led (lines 124-130 and 187-189) -/

theorem ledTick_ledTimeout (s : State) : (ledTick s).ledTimeout = s.ledTimeout - 1 := by
  unfold ledTick
  split
  · split <;> rfl
  · rename_i h
    have h0 : s.ledTimeout = 0 := not_not.mp h
    rw [h0]

theorem ledTick_bit6 (s : State) :
    (ledTick s).PORTB.testBit 6 = (s.PORTB.testBit 6 || decide (s.ledTimeout = 1)) := by
  unfold ledTick
  split
  · rename_i h
    split
    · rename_i h1
      have : s.ledTimeout = 1 := by omega
      simp [testBit_or_64, -Nat.testBit_or, this]
    · rename_i h1
      have : s.ledTimeout ≠ 1 := by omega
      simp [this]
  · rename_i h
    have h0 : s.ledTimeout = 0 := not_not.mp h
    simp [h0]

theorem raiseFirst_ledTimeout (s : State) : (raiseFirst s).ledTimeout = s.ledTimeout := by
  unfold raiseFirst
  split
  · split <;> rfl
  · rfl

theorem raiseSecond_ledTimeout (s : State) : (raiseSecond s).ledTimeout = s.ledTimeout := by
  unfold raiseSecond
  split
  · split <;> rfl
  · rfl

theorem raiseFirst_PORTB (s : State) : (raiseFirst s).PORTB = s.PORTB := by
  unfold raiseFirst
  split
  · split <;> rfl
  · rfl

theorem raiseSecond_bit6 (s : State) :
    (raiseSecond s).PORTB.testBit 6 = s.PORTB.testBit 6 := by
  unfold raiseSecond
  split
  · split <;> first | rfl | simp [testBit_or_1, -Nat.testBit_or]
  · rfl

theorem ovf_ledTimeout (s : State) : (TIMER0_OVF_vect s).ledTimeout = s.ledTimeout - 1 := by
  unfold TIMER0_OVF_vect
  rw [ledTick_ledTimeout]
  show (raiseSecond (raiseFirst s)).ledTimeout - 1 = _
  rw [raiseSecond_ledTimeout, raiseFirst_ledTimeout]

theorem ovf_bit6 (s : State) :
    (TIMER0_OVF_vect s).PORTB.testBit 6 =
      (s.PORTB.testBit 6 || decide (s.ledTimeout = 1)) := by
  unfold TIMER0_OVF_vect
  rw [ledTick_bit6]
  show ((raiseSecond (raiseFirst s)).PORTB.testBit 6 ||
    decide ((raiseSecond (raiseFirst s)).ledTimeout = 1)) = _
  rw [raiseSecond_bit6, raiseSecond_ledTimeout, raiseFirst_ledTimeout, raiseFirst_PORTB]

theorem forTest_ledTimeout (s : State) (c : Nat) : (forTest s c).ledTimeout = s.ledTimeout := by
  unfold forTest
  split <;> rfl

theorem forTest_PORTB (s : State) (c : Nat) : (forTest s c).PORTB = s.PORTB := by
  unfold forTest
  split <;> rfl

/-- A statement of `main` other than an accepting address check leaves the led
timeout and port B alone. -/
theorem mainStep_led (cfg : Config) (s : State) (hw : Hw)
    (h : isMatch cfg s (Event.poll hw) = false) :
    (mainStep cfg s hw).ledTimeout = s.ledTimeout ∧ (mainStep cfg s hw).PORTB = s.PORTB := by
  by_cases hpc : s.pc = Pc.checkAddr
  · rw [mainStep_checkAddr cfg s hw hpc]
    by_cases hf : hw.USISR &&& (1 <<< USIOIF) ≠ 0
    · by_cases ha : hw.USIDR = 0 ∨ hw.USIDR = myAddress cfg hw.PINB
      · simp [isMatch, hpc, hf, ha] at h
      · rw [if_pos hf, if_neg ha]; exact ⟨rfl, rfl⟩
    · rw [if_neg hf]; exact ⟨rfl, rfl⟩
  · unfold mainStep
    split <;> (try split) <;>
      first
        | exact ⟨rfl, rfl⟩
        | exact ⟨forTest_ledTimeout _ _, forTest_PORTB _ _⟩
        | exact absurd (by assumption) hpc

theorem run_led (cfg : Config) (evs : List Event) :
    ∀ s : State, addressMatches cfg s evs = 0 →
      (run cfg s evs).ledTimeout = s.ledTimeout - countOvf evs ∧
      (run cfg s evs).PORTB.testBit 6 =
        (s.PORTB.testBit 6 || (decide (0 < s.ledTimeout) && decide (s.ledTimeout ≤ countOvf evs)))
    := by
  induction evs with
  | nil =>
    intro s _
    refine ⟨by simp [run_nil, countOvf], ?_⟩
    by_cases h0 : 0 < s.ledTimeout
    · have : ¬ s.ledTimeout ≤ 0 := by omega
      simp [run_nil, countOvf, this]
    · simp [run_nil, countOvf, h0]
  | cons e evs ih =>
    intro s hm
    simp only [addressMatches] at hm
    have hm1 : isMatch cfg s e = false := by
      by_cases hx : isMatch cfg s e = true
      · rw [if_pos hx] at hm; omega
      · simpa using hx
    have hm2 : addressMatches cfg (step cfg s e) evs = 0 := by omega
    obtain ⟨ih1, ih2⟩ := ih (step cfg s e) hm2
    rw [run_cons, ih1, ih2]
    cases e with
    | poll hw =>
      obtain ⟨h1, h2⟩ := mainStep_led cfg s hw hm1
      have hc : countOvf (Event.poll hw :: evs) = countOvf evs := by
        simp [countOvf]
      simp only [step, h1, h2, hc, and_self]
    | ovf =>
      have hc : countOvf (Event.ovf :: evs) = countOvf evs + 1 := by simp [countOvf]
      simp only [step, ovf_ledTimeout, ovf_bit6, hc]
      refine ⟨by omega, ?_⟩
      by_cases hb : s.PORTB.testBit 6 = true
      · simp [hb]
      · have hb2 : s.PORTB.testBit 6 = false := by simpa using hb
        rw [hb2]
        simp only [Bool.false_or]
        rw [Bool.eq_iff_iff]
        simp only [Bool.or_eq_true, Bool.and_eq_true, decide_eq_true_eq]
        omega
    | compA =>
      have hc : countOvf (Event.compA :: evs) = countOvf evs := by simp [countOvf]
      simp only [step, TIMER0_COMPA_vect, hc, and_self]
    | compB =>
      have hc : countOvf (Event.compB :: evs) = countOvf evs := by simp [countOvf]
      simp only [step, TIMER0_COMPB_vect, hc, testBit_clr_1]
      simp


/-! ## The data phase (lines 198-226) -/

theorem forTest_servo (s : State) (c : Nat) : (forTest s c).servo = s.servo := by
  unfold forTest
  split <;> rfl

theorem forTest_acks (s : State) (c : Nat) : (forTest s c).acks = s.acks := by
  unfold forTest
  split <;> rfl

theorem forTest_pc (s : State) (c : Nat) :
    (forTest s c).pc = if c < 10 then Pc.waitData c else Pc.waitStart := by
  unfold forTest
  split <;> rfl

/-- The three reads of one data byte at channel `c`. -/
theorem run_bytePolls (cfg : Config) (s : State) (pinb b c : Nat)
    (hpc : s.pc = Pc.waitData c) (hc : c < 10) (hb : b < 256) :
    (run cfg s (bytePolls pinb b)).servo = s.servo.set c b ∧
    (run cfg s (bytePolls pinb b)).ledTimeout = s.ledTimeout ∧
    (run cfg s (bytePolls pinb b)).PORTB = s.PORTB ∧
    (run cfg s (bytePolls pinb b)).acks = s.acks + 1 ∧
    (run cfg s (bytePolls pinb b)).pc =
      if c + 1 < 10 then Pc.waitData (c + 1) else Pc.waitStart := by
  have hmod : (c + 1) % 256 = c + 1 := Nat.mod_eq_of_lt (by omega)
  simp only [bytePolls, ackPoll, run_cons, run_nil, step]
  rw [mainStep_waitData cfg s _ c hpc, if_neg oif_wait]
  rw [mainStep_checkData cfg { s with pc := Pc.checkData c } _ c rfl, if_pos oif_oif]
  rw [mainStep_waitDataAck cfg _ _ c rfl, if_neg oif_oif, hmod]
  refine ⟨?_, ?_, ?_, ?_, ?_⟩
  · rw [forTest_servo]
    show s.servo.set c (b % 256) = _
    rw [Nat.mod_eq_of_lt hb]
  · rw [forTest_ledTimeout]; rfl
  · rw [forTest_PORTB]; rfl
  · rw [forTest_acks]; rfl
  · rw [forTest_pc]

/-- The two reads of a stop condition, in the data phase or after its end. -/
theorem run_stopPolls (cfg : Config) (s : State) (pinb : Nat)
    (hpc : (∃ c, s.pc = Pc.waitData c) ∨ s.pc = Pc.waitStart) :
    (run cfg s (stopPolls pinb)).servo = s.servo ∧
    (run cfg s (stopPolls pinb)).ledTimeout = s.ledTimeout ∧
    (run cfg s (stopPolls pinb)).PORTB = s.PORTB ∧
    (run cfg s (stopPolls pinb)).acks = s.acks ∧
    (run cfg s (stopPolls pinb)).pc = Pc.waitStart := by
  rcases hpc with ⟨c, hpc⟩ | hpc
  · simp only [stopPolls, run_cons, run_nil, step]
    rw [mainStep_waitData cfg s _ c hpc, if_neg pf_wait]
    rw [mainStep_checkData cfg { s with pc := Pc.checkData c } _ c rfl,
      if_neg (not_not.mpr pf_oif)]
    exact ⟨rfl, rfl, rfl, rfl, rfl⟩
  · rw [run_waitStart_idle cfg _ s hpc (stopPolls_noStart pinb)]
    exact ⟨rfl, rfl, rfl, rfl, hpc⟩

theorem take_succ_set (l : List Nat) (c b : Nat) (hc : c < l.length) :
    (l.set c b).take (c + 1) = l.take c ++ [b] := by
  induction l generalizing c with
  | nil => simp at hc
  | cons x xs ih =>
    cases c with
    | zero => simp
    | succ c =>
      simp only [List.length_cons, Nat.add_lt_add_iff_right] at hc
      simp [List.set, ih c hc]

/-- The reads of the data bytes `bs`, starting at channel `c`. -/
theorem run_dataPolls (cfg : Config) (pinb : Nat) (bs : List Nat) :
    ∀ (c : Nat) (s : State), s.pc = Pc.waitData c → c < 10 → c + bs.length ≤ 10 →
      s.servo.length = 10 → (∀ b ∈ bs, b < 256) →
      (run cfg s (dataPolls pinb bs)).servo =
        s.servo.take c ++ bs ++ s.servo.drop (c + bs.length) ∧
      (run cfg s (dataPolls pinb bs)).ledTimeout = s.ledTimeout ∧
      (run cfg s (dataPolls pinb bs)).PORTB = s.PORTB ∧
      (run cfg s (dataPolls pinb bs)).acks = s.acks + bs.length ∧
      (run cfg s (dataPolls pinb bs)).pc =
        if c + bs.length < 10 then Pc.waitData (c + bs.length) else Pc.waitStart := by
  induction bs with
  | nil =>
    intro c s hpc hc _ _ _
    simp only [dataPolls, run_nil, List.length_nil, Nat.add_zero, List.append_nil,
      List.take_append_drop, if_pos hc, hpc, and_self]
  | cons b bs ih =>
    intro c s hpc hc hlen hl hb
    have hb0 : b < 256 := hb b (List.mem_cons_self _ _)
    have hbs : ∀ x ∈ bs, x < 256 := fun x hx => hb x (List.mem_cons_of_mem _ hx)
    obtain ⟨h1, h2, h3, h4, h5⟩ := run_bytePolls cfg s pinb b c hpc hc hb0
    simp only [List.length_cons] at hlen ⊢
    rw [dataPolls, run_append]
    have hset : s.servo.set c b = s.servo.take c ++ [b] ++ s.servo.drop (c + 1) := by
      rw [List.set_eq_take_append_cons_drop, if_pos (by omega)]
      simp
    by_cases hc1 : c + 1 < 10
    · rw [if_pos hc1] at h5
      obtain ⟨i1, i2, i3, i4, i5⟩ := ih (c + 1) _ h5 hc1 (by omega)
        (by rw [h1, List.length_set]; exact hl) hbs
      refine ⟨?_, by rw [i2, h2], by rw [i3, h3], by rw [i4, h4]; omega, ?_⟩
      · rw [i1, h1, take_succ_set _ _ _ (by omega),
          List.drop_set_of_lt _ _ (by omega)]
        have e : c + 1 + bs.length = c + (bs.length + 1) := by omega
        rw [e]
        simp
      · rw [i5]
        have e : c + 1 + bs.length = c + (bs.length + 1) := by omega
        rw [e]
    · rw [if_neg hc1] at h5
      have hnil : bs = [] := List.length_eq_zero.mp (by omega)
      subst hnil
      have hc9 : c + (0 + 1) = 10 := by omega
      simp only [dataPolls, run_nil, List.length_nil]
      refine ⟨?_, h2, h3, by rw [h4], ?_⟩
      · rw [h1, hset, hc9]
      · rw [h5, if_neg (by omega)]

/-- A whole accepted transaction, read by `main` without interruption. -/
theorem run_transaction (cfg : Config) (s : State) (pinb a : Nat) (bs : List Nat)
    (hpc : s.pc = Pc.waitStart) (hl : s.servo.length = 10) (hp : pinb &&& 160 = 0)
    (hacc : a = 0 ∨ a = myAddress cfg pinb) (hn : bs.length ≤ 10) (hb : ∀ b ∈ bs, b < 256) :
    (run cfg s (transaction pinb a bs)).servo = bs ++ s.servo.drop bs.length ∧
    (run cfg s (transaction pinb a bs)).ledTimeout = 20 ∧
    (run cfg s (transaction pinb a bs)).PORTB = clr s.PORTB 64 ∧
    (run cfg s (transaction pinb a bs)).acks = s.acks + 1 + bs.length ∧
    (run cfg s (transaction pinb a bs)).pc = Pc.waitStart := by
  rw [transaction, run_append, run_addressPolls cfg s pinb a hpc hp,
    mainStep_checkAddr cfg { s with pc := Pc.checkAddr } _ rfl, if_pos oif_oif, if_pos hacc,
    run_cons, ackPoll]
  simp only [step]
  rw [mainStep_waitAddrAck cfg _ _ rfl, if_neg oif_oif, run_append]
  have h0 : (0 : Nat) < 10 := by decide
  generalize ht : forTest _ 0 = t
  have t1 : t.servo = s.servo := by rw [← ht, forTest_servo]; rfl
  have t2 : t.ledTimeout = 20 := by rw [← ht, forTest_ledTimeout]; rfl
  have t3 : t.PORTB = clr s.PORTB 64 := by rw [← ht, forTest_PORTB]; rfl
  have t4 : t.acks = s.acks + 1 := by rw [← ht, forTest_acks]; rfl
  have t5 : t.pc = Pc.waitData 0 := by rw [← ht, forTest_pc, if_pos h0]
  obtain ⟨d1, d2, d3, d4, d5⟩ := run_dataPolls cfg pinb bs 0 t t5 h0 (by omega)
    (by rw [t1]; exact hl) hb
  obtain ⟨e1, e2, e3, e4, e5⟩ := run_stopPolls cfg (run cfg t (dataPolls pinb bs)) pinb (by
    rw [d5]
    by_cases h : 0 + bs.length < 10
    · rw [if_pos h]; exact Or.inl ⟨_, rfl⟩
    · rw [if_neg h]; exact Or.inr rfl)
  refine ⟨?_, ?_, ?_, ?_, e5⟩
  · rw [e1, d1, t1]
    simp
  · rw [e2, d2, t2]
  · rw [e3, d3, t3]
  · rw [e4, d4, t4]


/-! ## Interrupts during a transaction -/

theorem raiseFirst_pc (s : State) : (raiseFirst s).pc = s.pc := by
  unfold raiseFirst
  split
  · split <;> rfl
  · rfl

theorem raiseSecond_pc (s : State) : (raiseSecond s).pc = s.pc := by
  unfold raiseSecond
  split
  · split <;> rfl
  · rfl

theorem ledTick_pc (s : State) : (ledTick s).pc = s.pc := by
  unfold ledTick
  split
  · split <;> rfl
  · rfl

theorem ovf_pc (s : State) : (TIMER0_OVF_vect s).pc = s.pc := by
  unfold TIMER0_OVF_vect
  rw [ledTick_pc]
  show (raiseSecond (raiseFirst s)).pc = _
  rw [raiseSecond_pc, raiseFirst_pc]

/-- An interrupt changes neither the place where `main` stands nor the servo
values. -/
theorem step_interrupt (cfg : Config) (s : State) (e : Event) (he : e.isPoll = false) :
    (step cfg s e).pc = s.pc ∧ (step cfg s e).servo = s.servo := by
  cases e with
  | poll hw => simp [Event.isPoll] at he
  | ovf => exact ⟨ovf_pc s, ovf_servo s⟩
  | compA => exact ⟨rfl, rfl⟩
  | compB => exact ⟨rfl, rfl⟩

/-- Where `main` goes and what it stores depends only on where it stands, on
the servo values and on the registers it reads. -/
theorem mainStep_view (cfg : Config) (s t : State) (hw : Hw)
    (h1 : s.pc = t.pc) (h2 : s.servo = t.servo) :
    (mainStep cfg s hw).pc = (mainStep cfg t hw).pc ∧
      (mainStep cfg s hw).servo = (mainStep cfg t hw).servo := by
  cases hpc : t.pc with
  | waitStart =>
    rw [mainStep_waitStart cfg s hw (h1.trans hpc), mainStep_waitStart cfg t hw hpc]
    split <;> simp [h1, h2]
  | waitStartEnd =>
    rw [mainStep_waitStartEnd cfg s hw (h1.trans hpc), mainStep_waitStartEnd cfg t hw hpc]
    split <;> simp [h1, h2]
  | checkStop =>
    rw [mainStep_checkStop cfg s hw (h1.trans hpc), mainStep_checkStop cfg t hw hpc]
    split <;> simp [h1, h2]
  | waitAddr =>
    rw [mainStep_waitAddr cfg s hw (h1.trans hpc), mainStep_waitAddr cfg t hw hpc]
    split <;> simp [h1, h2]
  | checkAddr =>
    rw [mainStep_checkAddr cfg s hw (h1.trans hpc), mainStep_checkAddr cfg t hw hpc]
    split
    · split <;> simp [h2, loopTop, sendAck]
    · simp [h2, loopTop]
  | waitAddrAck =>
    rw [mainStep_waitAddrAck cfg s hw (h1.trans hpc), mainStep_waitAddrAck cfg t hw hpc]
    split
    · simp [h1, h2]
    · simp [forTest_pc, forTest_servo, h2]
  | waitData c =>
    rw [mainStep_waitData cfg s hw c (h1.trans hpc), mainStep_waitData cfg t hw c hpc]
    split <;> simp [h1, h2]
  | checkData c =>
    rw [mainStep_checkData cfg s hw c (h1.trans hpc), mainStep_checkData cfg t hw c hpc]
    split <;> simp [h2, loopTop, sendAck]
  | waitDataAck c =>
    rw [mainStep_waitDataAck cfg s hw c (h1.trans hpc), mainStep_waitDataAck cfg t hw c hpc]
    split
    · simp [h1, h2]
    · simp [forTest_pc, forTest_servo, h2]
  | halted =>
    rw [mainStep_halted cfg s hw (h1.trans hpc), mainStep_halted cfg t hw hpc]
    exact ⟨h1, h2⟩

/-- Interrupts that are served in between do not change what a run of `main`
stores: the servo values and the place of `main` after a run are those after
the statements of `main` alone. -/
theorem run_view (cfg : Config) (evs : List Event) :
    ∀ s t : State, s.pc = t.pc → s.servo = t.servo →
      (run cfg s evs).pc = (run cfg t (evs.filter Event.isPoll)).pc ∧
      (run cfg s evs).servo = (run cfg t (evs.filter Event.isPoll)).servo := by
  induction evs with
  | nil => intro s t h1 h2; exact ⟨h1, h2⟩
  | cons e evs ih =>
    intro s t h1 h2
    by_cases he : e.isPoll = true
    · rw [List.filter_cons_of_pos he, run_cons, run_cons]
      cases e with
      | poll hw =>
        obtain ⟨v1, v2⟩ := mainStep_view cfg s t hw h1 h2
        exact ih _ _ v1 v2
      | ovf => simp [Event.isPoll] at he
      | compA => simp [Event.isPoll] at he
      | compB => simp [Event.isPoll] at he
    · have he2 : e.isPoll = false := by simpa using he
      rw [List.filter_cons_of_neg he, run_cons]
      obtain ⟨v1, v2⟩ := step_interrupt cfg s e he2
      exact ih _ _ (v1.trans h1) (v2.trans h2)


theorem rd_append_left (bs l : List Nat) (i : Nat) (h : i < bs.length) :
    rd (bs ++ l) i = bs.getD i 0 := by
  unfold rd
  exact List.getD_append bs l 0 i h

theorem rd_append_drop (bs l : List Nat) (i : Nat) (h : bs.length ≤ i) :
    rd (bs ++ l.drop bs.length) i = rd l i := by
  unfold rd
  rw [List.getD_append_right bs _ 0 i h]
  simp only [List.getD_eq_getElem?_getD, List.getElem?_drop]
  have : bs.length + (i - bs.length) = i := by omega
  rw [this]

/-- C1: an accepted transaction with the data bytes `bs` (at most ten, each
below 256) and a stop condition, read by `main` with any interrupts served in
between, ends with `main` waiting for the next start condition and with
`servo[i]` equal to the `i`-th byte for `i` below the number of bytes and
unchanged for the other indices up to 9.  The bytes 50,60,70 sent to the
values 1..10 leave 50,60,70,4,5,6,7,8,9,10. -/
theorem transaction_stores_bytes (cfg : Config) (s : State) (pinb a : Nat) (bs : List Nat)
    (evs : List Event)
    (hpc : s.pc = Pc.waitStart) (hl : s.servo.length = 10) (hp : pinb &&& 160 = 0)
    (hacc : a = 0 ∨ a = myAddress cfg pinb) (hn : bs.length ≤ 10) (hb : ∀ b ∈ bs, b < 256)
    (hevs : evs.filter Event.isPoll = transaction pinb a bs) :
    (∀ i : Nat, i < bs.length → rd (run cfg s evs).servo i = bs.getD i 0) ∧
    (∀ i : Nat, bs.length ≤ i → i ≤ 9 → rd (run cfg s evs).servo i = rd s.servo i) ∧
    (run cfg s evs).servo = bs ++ s.servo.drop bs.length ∧
    (run cfg s evs).servo.length = 10 ∧
    (run cfg s evs).pc = Pc.waitStart ∧
    (run sourceConfig { init with servo := [1, 2, 3, 4, 5, 6, 7, 8, 9, 10] }
        (transaction 30 30 [50, 60, 70])).servo = [50, 60, 70, 4, 5, 6, 7, 8, 9, 10] := by
  obtain ⟨v1, v2⟩ := run_view cfg evs s s rfl rfl
  obtain ⟨t1, _, _, _, t5⟩ := run_transaction cfg s pinb a bs hpc hl hp hacc hn hb
  rw [hevs] at v1 v2
  have hs : (run cfg s evs).servo = bs ++ s.servo.drop bs.length := v2.trans t1
  refine ⟨?_, ?_, hs, ?_, v1.trans t5, by decide⟩
  · intro i hi
    rw [hs]; exact rd_append_left _ _ i hi
  · intro i hi _
    rw [hs]; exact rd_append_drop _ _ i hi
  · rw [hs, List.length_append, List.length_drop]; omega

/-- Witness of C1: the bytes 50,60,70 sent to address 0x1E of the source
configuration, with an overflow and a compare interrupt served in between. -/
theorem transaction_stores_bytes_witness :
    init.pc = Pc.waitStart ∧ init.servo.length = 10 ∧ (30 : Nat) &&& 160 = 0 ∧
      ((30 : Nat) = 0 ∨ 30 = myAddress sourceConfig 30) ∧
      (run sourceConfig init (Event.ovf :: addressPolls 30 30 ++ Event.compA ::
          ackPoll 30 :: (dataPolls 30 [50, 60, 70] ++ stopPolls 30))).servo =
        [50, 60, 70] ++ init.servo.drop 3 :=
  ⟨rfl, rfl, by decide, by decide,
    (transaction_stores_bytes sourceConfig init 30 30 [50, 60, 70]
      (Event.ovf :: addressPolls 30 30 ++ Event.compA ::
          ackPoll 30 :: (dataPolls 30 [50, 60, 70] ++ stopPolls 30))
      rfl rfl (by decide) (by decide) (by decide) (by decide) (by decide)).2.2.1⟩

theorem run_halted (cfg : Config) (evs : List Event) :
    ∀ s : State, s.pc = Pc.halted →
      (run cfg s evs).pc = Pc.halted ∧ (run cfg s evs).servo = s.servo := by
  induction evs with
  | nil => intro s h; exact ⟨h, rfl⟩
  | cons e evs ih =>
    intro s h
    rw [run_cons]
    have hs : (step cfg s e).pc = Pc.halted ∧ (step cfg s e).servo = s.servo := by
      cases e with
      | poll hw =>
        show (mainStep cfg s hw).pc = _ ∧ (mainStep cfg s hw).servo = _
        rw [mainStep_halted cfg s hw h]; exact ⟨h, rfl⟩
      | ovf => exact ⟨(ovf_pc s).trans h, ovf_servo s⟩
      | compA => exact ⟨h, rfl⟩
      | compB => exact ⟨h, rfl⟩
    obtain ⟨i1, i2⟩ := ih _ hs.1
    exact ⟨i1, i2.trans hs.2⟩

/-- C9 fails on the code: when line 168 reads SDA high after a start flag,
the `break` of line 169 leaves `while (1)`, as no inner loop encloses it.
`main` never reads the bus again: whatever follows, it stays past the loop and
the servo values stay as they are.  After start flag and stop condition the
transaction 50,60,70 to address 0x1E stores nothing. -/
theorem stop_after_start_halts (cfg : Config) (s : State) (hw : Hw)
    (hpc : s.pc = Pc.checkStop) (hsda : hw.PINB &&& 32 ≠ 0) :
    (mainStep cfg s hw).pc = Pc.halted ∧
    (∀ evs : List Event,
      (run cfg (mainStep cfg s hw) evs).pc = Pc.halted ∧
      (run cfg (mainStep cfg s hw) evs).servo = s.servo) ∧
    run sourceConfig init
      (Event.poll ⟨1 <<< USISIF, 0, 30 ||| 128⟩ :: Event.poll ⟨1 <<< USISIF, 0, 30 ||| 160⟩ ::
        Event.poll ⟨1 <<< USISIF, 0, 30 ||| 160⟩ :: transaction 30 30 [50, 60, 70]) =
      { init with pc := Pc.halted } := by
  have h : mainStep cfg s hw = { s with pc := Pc.halted } := by
    rw [mainStep_checkStop cfg s hw hpc, if_pos hsda]
  refine ⟨by rw [h], ?_, by decide⟩
  intro evs
  have := run_halted cfg evs (mainStep cfg s hw) (by rw [h])
  rw [h] at this ⊢
  exact this

/-- Witness of C9's failure: SDA read high at line 168. -/
theorem stop_after_start_halts_witness :
    ({ init with pc := Pc.checkStop } : State).pc = Pc.checkStop ∧ (160 : Nat) &&& 32 ≠ 0 ∧
      (run sourceConfig (mainStep sourceConfig { init with pc := Pc.checkStop } ⟨0, 0, 160⟩)
        (transaction 30 30 [50, 60, 70])).servo = init.servo :=
  ⟨rfl, by decide,
    ((stop_after_start_halts sourceConfig { init with pc := Pc.checkStop } ⟨0, 0, 160⟩ rfl
      (by decide)).2.1 (transaction 30 30 [50, 60, 70])).2⟩

/-! ## The compare-match interrupts (lines 73-91) -/

theorem pinHigh_compA (s : State) (c : Nat) (hc : c < 10) :
    pinHigh (TIMER0_COMPA_vect s) c = (pinHigh s c && decide (5 ≤ c)) := by
  interval_cases c <;>
    simp [TIMER0_COMPA_vect, pinHigh, servoPin, portReg, testBit_clr_1, testBit_clr_2,
      testBit_clr_4, -Nat.testBit_zero]

theorem pinHigh_compB (s : State) (c : Nat) (hc : c < 10) :
    pinHigh (TIMER0_COMPB_vect s) c = (pinHigh s c && decide (c < 5)) := by
  interval_cases c <;>
    simp [TIMER0_COMPB_vect, pinHigh, servoPin, portReg, testBit_clr_1, testBit_clr_8,
      testBit_clr_16, testBit_clr_32, testBit_clr_64, -Nat.testBit_zero]

/-- C11: after compare-match A the pins of servos 0..4 are low, so in
particular the pin of the first servo of the pair that the latest overflow
event has raised, whatever the cursor is; after compare-match B the pins of
servos 5..9 are low, so in particular the pin of the second servo of that
pair.  Compare-match A leaves the pins of servos 5..9 as they are,
compare-match B those of servos 0..4, and neither changes the led pin. -/
theorem compare_lowers (s : State) :
    (∀ c : Nat, c < 5 → pinHigh (TIMER0_COMPA_vect s) c = false) ∧
    (∀ c : Nat, 5 ≤ c → c < 10 → pinHigh (TIMER0_COMPA_vect s) c = pinHigh s c) ∧
    ledOn (TIMER0_COMPA_vect s) = ledOn s ∧
    (∀ c : Nat, 5 ≤ c → c < 10 → pinHigh (TIMER0_COMPB_vect s) c = false) ∧
    (∀ c : Nat, c < 5 → pinHigh (TIMER0_COMPB_vect s) c = pinHigh s c) ∧
    ledOn (TIMER0_COMPB_vect s) = ledOn s ∧
    (s.loop ≤ 4 →
      pinHigh (TIMER0_COMPA_vect (TIMER0_OVF_vect s)) s.loop = false ∧
      pinHigh (TIMER0_COMPB_vect (TIMER0_OVF_vect s)) (s.loop + 5) = false ∧
      pinHigh (TIMER0_COMPB_vect (TIMER0_COMPA_vect (TIMER0_OVF_vect s))) s.loop = false ∧
      pinHigh (TIMER0_COMPB_vect (TIMER0_COMPA_vect (TIMER0_OVF_vect s))) (s.loop + 5)
        = false) := by
  refine ⟨?_, ?_, ?_, ?_, ?_, ?_, ?_⟩
  · intro c hc
    rw [pinHigh_compA s c (by omega)]
    have : ¬ 5 ≤ c := by omega
    simp [this]
  · intro c h5 hc
    rw [pinHigh_compA s c hc]
    simp [h5]
  · rfl
  · intro c h5 hc
    rw [pinHigh_compB s c hc]
    have : ¬ c < 5 := by omega
    simp [this]
  · intro c hc
    rw [pinHigh_compB s c (by omega)]
    simp [hc]
  · simp [ledOn, TIMER0_COMPB_vect, testBit_clr_1]
  · intro hk
    have n5 : ¬ 5 ≤ s.loop := by omega
    have n6 : ¬ s.loop + 5 < 5 := by omega
    refine ⟨?_, ?_, ?_, ?_⟩
    · rw [pinHigh_compA _ _ (by omega)]
      simp [n5]
    · rw [pinHigh_compB _ _ (by omega)]
      simp
    · rw [pinHigh_compB _ _ (by omega), pinHigh_compA _ _ (by omega)]
      simp [n5]
    · rw [pinHigh_compB _ _ (by omega)]
      simp

/-- Witness of C11: the overflow event at cursor 1 with the values
30,160,0,90,45,30,160,0,90,45 raises servos 1 and 6, the compare matches lower
them. -/
theorem compare_lowers_witness :
    ({ init with servo := [30, 160, 0, 90, 45, 30, 160, 0, 90, 45], loop := 1 } : State).loop
        ≤ 4 ∧
      pinHigh (TIMER0_OVF_vect
        { init with servo := [30, 160, 0, 90, 45, 30, 160, 0, 90, 45], loop := 1 }) 1 = true ∧
      pinHigh (TIMER0_COMPA_vect (TIMER0_OVF_vect
        { init with servo := [30, 160, 0, 90, 45, 30, 160, 0, 90, 45], loop := 1 })) 1
        = false :=
  ⟨by decide, by decide,
    ((compare_lowers { init with servo := [30, 160, 0, 90, 45, 30, 160, 0, 90, 45], loop := 1 }
      ).2.2.2.2.2.2 (by decide)).1⟩

/-! ## The pin table of the header (lines 12-31) -/

theorem portReg_raiseFirst (s : State) (c : Nat) (P : Port) (i : Nat)
    (hc : c < 5) (hl : s.loop = c) (hz : rd s.servo c ≠ 0) :
    (portReg (raiseFirst s) P).testBit i =
      ((portReg s P).testBit i || decide (servoPin c = (P, i))) := by
  subst hl
  obtain ⟨k, hk⟩ : ∃ k, s.loop = k := ⟨_, rfl⟩
  rw [hk] at hc hz ⊢
  interval_cases k <;> cases P <;>
    simp [raiseFirst, hk, hz, servoPin, portReg, testBit_or_1, testBit_or_2, testBit_or_4,
      -Nat.testBit_or, -Nat.testBit_zero]

theorem portReg_raiseSecond (s : State) (c : Nat) (P : Port) (i : Nat)
    (h5 : 5 ≤ c) (hc : c < 10) (hl : s.loop + 5 = c) (hz : rd s.servo c ≠ 0) :
    (portReg (raiseSecond s) P).testBit i =
      ((portReg s P).testBit i || decide (servoPin c = (P, i))) := by
  subst hl
  obtain ⟨k, hk⟩ : ∃ k, s.loop = k := ⟨_, rfl⟩
  rw [hk] at hc hz ⊢
  have hk4 : k ≤ 4 := by omega
  interval_cases k <;> cases P <;>
    simp [raiseSecond, hk, hz, servoPin, portReg, testBit_or_1, testBit_or_8, testBit_or_16,
      testBit_or_32, testBit_or_64, -Nat.testBit_or, -Nat.testBit_zero]

theorem portReg_compA (s : State) (P : Port) (i : Nat) (hi : i < 8) :
    (portReg (TIMER0_COMPA_vect s) P).testBit i =
      ((portReg s P).testBit i && !decide ((P, i) ∈ (List.range 5).map servoPin)) := by
  cases P <;> interval_cases i <;>
    simp [TIMER0_COMPA_vect, portReg, testBit_clr_1, testBit_clr_2, testBit_clr_4,
      List.range_succ, servoPin, -Nat.testBit_zero]

theorem portReg_compB (s : State) (P : Port) (i : Nat) (hi : i < 8) :
    (portReg (TIMER0_COMPB_vect s) P).testBit i =
      ((portReg s P).testBit i && !decide ((P, i) ∈ (List.range' 5 5).map servoPin)) := by
  cases P <;> interval_cases i <;>
    simp [TIMER0_COMPB_vect, portReg, testBit_clr_1, testBit_clr_8, testBit_clr_16,
      testBit_clr_32, testBit_clr_64, List.range', servoPin, -Nat.testBit_zero]

/-- C14: the pin that the overflow interrupt sets for servo `c` (lines 98-115)
is the pin of servo `c` in the header's table and no other bit of any port is
changed by that write; compare-match A clears exactly the table's pins of
servos 0..4 and compare-match B exactly those of servos 5..9; so a servo is
raised and lowered on one and the same pin, the documented one.  The table is
0:PD0, 1:PD1, 2:PA1, 3:PA0, 4:PD2, 5:PD3, 6:PD4, 7:PD5, 8:PD6, 9:PB0; its ten
pins are pairwise distinct and none of them is the led pin PB6. -/
theorem pin_table_agrees (s : State) :
    (∀ (c : Nat) (P : Port) (i : Nat), c < 5 → s.loop = c → rd s.servo c ≠ 0 →
      (portReg (raiseFirst s) P).testBit i =
        ((portReg s P).testBit i || decide (servoPin c = (P, i)))) ∧
    (∀ (c : Nat) (P : Port) (i : Nat), 5 ≤ c → c < 10 → s.loop + 5 = c → rd s.servo c ≠ 0 →
      (portReg (raiseSecond s) P).testBit i =
        ((portReg s P).testBit i || decide (servoPin c = (P, i)))) ∧
    (∀ (P : Port) (i : Nat), i < 8 →
      (portReg (TIMER0_COMPA_vect s) P).testBit i =
        ((portReg s P).testBit i && !decide ((P, i) ∈ (List.range 5).map servoPin))) ∧
    (∀ (P : Port) (i : Nat), i < 8 →
      (portReg (TIMER0_COMPB_vect s) P).testBit i =
        ((portReg s P).testBit i && !decide ((P, i) ∈ (List.range' 5 5).map servoPin))) ∧
    (∀ c : Nat, c < 10 → s.loop = c % 5 → rd s.servo c ≠ 0 →
      pinHigh (TIMER0_OVF_vect s) c = true ∧
      pinHigh (TIMER0_COMPB_vect (TIMER0_COMPA_vect (TIMER0_OVF_vect s))) c = false) ∧
    (List.range 10).map servoPin =
      [(Port.D, 0), (Port.D, 1), (Port.A, 1), (Port.A, 0), (Port.D, 2), (Port.D, 3),
        (Port.D, 4), (Port.D, 5), (Port.D, 6), (Port.B, 0)] ∧
    ((List.range 10).map servoPin).Nodup ∧
    (∀ c : Nat, c < 10 → ∀ d : Nat, d < 10 → servoPin c = servoPin d → c = d) ∧
    (∀ c : Nat, c < 10 → servoPin c ≠ (Port.B, 6)) := by
  refine ⟨?_, ?_, ?_, ?_, ?_, by decide, by decide, by decide, by decide⟩
  · intro c P i hc hl hz
    exact portReg_raiseFirst s c P i hc hl hz
  · intro c P i h5 hc hl hz
    exact portReg_raiseSecond s c P i h5 hc hl hz
  · intro P i hi
    exact portReg_compA s P i hi
  · intro P i hi
    exact portReg_compB s P i hi
  · intro c hc hl hz
    have hk : s.loop ≤ 4 := by omega
    refine ⟨?_, ?_⟩
    · rw [pinHigh_ovf s c hk hc]
      by_cases h5 : c < 5
      · have : c = s.loop := by omega
        subst this
        simp [hz]
      · have : c = s.loop + 5 := by omega
        subst this
        simp [hz]
    · rw [pinHigh_compB _ c hc, pinHigh_compA _ c hc]
      by_cases h5 : c < 5
      · have : ¬ 5 ≤ c := by omega
        simp [this]
      · simp [h5]

/-- Witness of C14: servo 7 at cursor 2 is raised and lowered on PD5. -/
theorem pin_table_agrees_witness :
    (7 : Nat) < 10 ∧
      ({ init with servo := [1, 1, 1, 1, 1, 1, 1, 1, 1, 1], loop := 2 } : State).loop = 7 % 5 ∧
      rd ({ init with servo := [1, 1, 1, 1, 1, 1, 1, 1, 1, 1], loop := 2 } : State).servo 7 ≠ 0 ∧
      pinHigh (TIMER0_OVF_vect { init with servo := [1, 1, 1, 1, 1, 1, 1, 1, 1, 1], loop := 2 })
        7 = true ∧
      pinHigh (TIMER0_COMPB_vect (TIMER0_COMPA_vect (TIMER0_OVF_vect
        { init with servo := [1, 1, 1, 1, 1, 1, 1, 1, 1, 1], loop := 2 }))) 7 = false :=
  ⟨by decide, by decide, by decide,
    (pin_table_agrees { init with servo := [1, 1, 1, 1, 1, 1, 1, 1, 1, 1], loop := 2 }
      ).2.2.2.2.1 7 (by decide) (by decide) (by decide)⟩

/-! ## The acknowledge bits (lines 191-196 and 214-219) -/

theorem raiseFirst_acks (s : State) : (raiseFirst s).acks = s.acks := by
  unfold raiseFirst
  split
  · split <;> rfl
  · rfl

theorem raiseSecond_acks (s : State) : (raiseSecond s).acks = s.acks := by
  unfold raiseSecond
  split
  · split <;> rfl
  · rfl

theorem ledTick_acks (s : State) : (ledTick s).acks = s.acks := by
  unfold ledTick
  split
  · split <;> rfl
  · rfl

theorem ovf_acks (s : State) : (TIMER0_OVF_vect s).acks = s.acks := by
  unfold TIMER0_OVF_vect
  rw [ledTick_acks]
  show (raiseSecond (raiseFirst s)).acks = _
  rw [raiseSecond_acks, raiseFirst_acks]

theorem step_interrupt_acks (cfg : Config) (s : State) (e : Event) (he : e.isPoll = false) :
    (step cfg s e).acks = s.acks := by
  cases e with
  | poll hw => simp [Event.isPoll] at he
  | ovf => exact ovf_acks s
  | compA => rfl
  | compB => rfl

/-- How many acknowledge sequences `main` has started depends only on where it
stands and on the registers it reads. -/
theorem mainStep_acks_view (cfg : Config) (s t : State) (hw : Hw)
    (h1 : s.pc = t.pc) (h3 : s.acks = t.acks) :
    (mainStep cfg s hw).acks = (mainStep cfg t hw).acks := by
  cases hpc : t.pc with
  | waitStart =>
    rw [mainStep_waitStart cfg s hw (h1.trans hpc), mainStep_waitStart cfg t hw hpc]
    split <;> simp [h3]
  | waitStartEnd =>
    rw [mainStep_waitStartEnd cfg s hw (h1.trans hpc), mainStep_waitStartEnd cfg t hw hpc]
    split <;> simp [h3]
  | checkStop =>
    rw [mainStep_checkStop cfg s hw (h1.trans hpc), mainStep_checkStop cfg t hw hpc]
    split <;> simp [h3]
  | waitAddr =>
    rw [mainStep_waitAddr cfg s hw (h1.trans hpc), mainStep_waitAddr cfg t hw hpc]
    split <;> simp [h3]
  | checkAddr =>
    rw [mainStep_checkAddr cfg s hw (h1.trans hpc), mainStep_checkAddr cfg t hw hpc]
    split
    · split <;> simp [h3, loopTop, sendAck]
    · simp [h3, loopTop]
  | waitAddrAck =>
    rw [mainStep_waitAddrAck cfg s hw (h1.trans hpc), mainStep_waitAddrAck cfg t hw hpc]
    split
    · simp [h3]
    · simp [forTest_acks, h3]
  | waitData c =>
    rw [mainStep_waitData cfg s hw c (h1.trans hpc), mainStep_waitData cfg t hw c hpc]
    split <;> simp [h3]
  | checkData c =>
    rw [mainStep_checkData cfg s hw c (h1.trans hpc), mainStep_checkData cfg t hw c hpc]
    split <;> simp [h3, loopTop, sendAck]
  | waitDataAck c =>
    rw [mainStep_waitDataAck cfg s hw c (h1.trans hpc), mainStep_waitDataAck cfg t hw c hpc]
    split
    · simp [h3]
    · simp [forTest_acks, h3]
  | halted =>
    rw [mainStep_halted cfg s hw (h1.trans hpc), mainStep_halted cfg t hw hpc]
    exact h3

/-- Interrupts that are served in between do not change the number of
acknowledge sequences of a run. -/
theorem run_view_acks (cfg : Config) (evs : List Event) :
    ∀ s t : State, s.pc = t.pc → s.servo = t.servo → s.acks = t.acks →
      (run cfg s evs).acks = (run cfg t (evs.filter Event.isPoll)).acks := by
  induction evs with
  | nil => intro s t _ _ h3; exact h3
  | cons e evs ih =>
    intro s t h1 h2 h3
    by_cases he : e.isPoll = true
    · rw [List.filter_cons_of_pos he, run_cons, run_cons]
      cases e with
      | poll hw =>
        obtain ⟨v1, v2⟩ := mainStep_view cfg s t hw h1 h2
        exact ih _ _ v1 v2 (mainStep_acks_view cfg s t hw h1 h3)
      | ovf => simp [Event.isPoll] at he
      | compA => simp [Event.isPoll] at he
      | compB => simp [Event.isPoll] at he
    · have he2 : e.isPoll = false := by simpa using he
      rw [List.filter_cons_of_neg he, run_cons]
      obtain ⟨v1, v2⟩ := step_interrupt cfg s e he2
      exact ih _ _ (v1.trans h1) (v2.trans h2) ((step_interrupt_acks cfg s e he2).trans h3)

/-- A whole transaction whose address byte line 185 does not accept, read by
`main` without interruption: only lines 153-161 have an effect. -/
theorem run_transaction_reject (cfg : Config) (s : State) (pinb a : Nat) (bs : List Nat)
    (hpc : s.pc = Pc.waitStart) (hp : pinb &&& 160 = 0)
    (hrej : ¬ (a = 0 ∨ a = myAddress cfg pinb)) :
    run cfg s (transaction pinb a bs) = loopTop s := by
  rw [transaction, run_append, run_addressPolls cfg s pinb a hpc hp,
    mainStep_checkAddr cfg { s with pc := Pc.checkAddr } _ rfl, if_pos oif_oif, if_neg hrej]
  have h2 : loopTop { s with pc := Pc.checkAddr } = loopTop s := rfl
  rw [h2]
  apply run_waitStart_idle cfg _ (loopTop s) rfl
  intro e he
  simp only [List.mem_cons, List.mem_append] at he
  rcases he with h | h | h
  · exact ⟨_, h, oif_sif⟩
  · exact dataPolls_noStart _ _ e h
  · exact stopPolls_noStart _ e h

/-- C12: a transaction with `n` data bytes (at most ten) and a stop condition,
read by `main` with any interrupts served in between, starts `n + 1`
acknowledge sequences if its address byte is accepted and none if it is not.
The statement that stores a data byte writes the byte first and starts the
acknowledge sequence on the state that holds it (SDA then is an output). -/
theorem acks_counted (cfg : Config) (s : State) (pinb a : Nat) (bs : List Nat)
    (evs : List Event)
    (hpc : s.pc = Pc.waitStart) (hl : s.servo.length = 10) (hp : pinb &&& 160 = 0)
    (hn : bs.length ≤ 10) (hb : ∀ b ∈ bs, b < 256)
    (hevs : evs.filter Event.isPoll = transaction pinb a bs) :
    ((a = 0 ∨ a = myAddress cfg pinb) → (run cfg s evs).acks = s.acks + (bs.length + 1)) ∧
    (¬ (a = 0 ∨ a = myAddress cfg pinb) → (run cfg s evs).acks = s.acks) ∧
    (∀ (t : State) (hw : Hw) (c : Nat), t.pc = Pc.checkData c →
      hw.USISR &&& (1 <<< USIOIF) ≠ 0 →
      mainStep cfg t hw =
        { sendAck { t with servo := t.servo.set c (hw.USIDR % 256) } with
          pc := Pc.waitDataAck c } ∧
      (mainStep cfg t hw).acks = t.acks + 1 ∧
      (mainStep cfg t hw).DDRB.testBit 5 = true ∧
      (c < t.servo.length → rd (mainStep cfg t hw).servo c = hw.USIDR % 256)) := by
  have hv := run_view_acks cfg evs s s rfl rfl rfl
  rw [hevs] at hv
  refine ⟨?_, ?_, ?_⟩
  · intro hacc
    obtain ⟨_, _, _, t4, _⟩ := run_transaction cfg s pinb a bs hpc hl hp hacc hn hb
    rw [hv, t4]; omega
  · intro hrej
    rw [hv, run_transaction_reject cfg s pinb a bs hpc hp hrej]
    rfl
  · intro t hw c ht hf
    have h := mainStep_checkData cfg t hw c ht
    rw [if_pos hf] at h
    refine ⟨h, by rw [h]; rfl, ?_, ?_⟩
    · rw [h]
      show (t.DDRB ||| 32).testBit 5 = true
      simp [testBit_or_32, -Nat.testBit_or]
    · intro hc
      rw [h]
      show rd (t.servo.set c (hw.USIDR % 256)) c = _
      unfold rd
      rw [List.getD_eq_getElem _ _ (by rw [List.length_set]; exact hc)]
      simp

/-- Witness of C12: three data bytes to address 0x1E of the source
configuration, with interrupts in between: four acknowledge sequences. -/
theorem acks_counted_witness :
    init.pc = Pc.waitStart ∧ init.servo.length = 10 ∧ (30 : Nat) &&& 160 = 0 ∧
      ((30 : Nat) = 0 ∨ 30 = myAddress sourceConfig 30) ∧
      (run sourceConfig init (Event.ovf :: addressPolls 30 30 ++ Event.compA ::
          ackPoll 30 :: (dataPolls 30 [50, 60, 70] ++ stopPolls 30))).acks =
        init.acks + (3 + 1) :=
  ⟨rfl, rfl, by decide, by decide,
    (acks_counted sourceConfig init 30 30 [50, 60, 70]
      (Event.ovf :: addressPolls 30 30 ++ Event.compA ::
          ackPoll 30 :: (dataPolls 30 [50, 60, 70] ++ stopPolls 30))
      rfl rfl (by decide) (by decide) (by decide) (by decide)).1 (by decide)⟩

/-! ## The led and its timeout together -/

/-- Every event, served as a whole, keeps the led on exactly while the timeout
is not 0. -/
theorem step_led_iff (cfg : Config) (s : State) (e : Event)
    (h : ledOn s = true ↔ 0 < s.ledTimeout) :
    ledOn (step cfg s e) = true ↔ 0 < (step cfg s e).ledTimeout := by
  unfold ledOn at h ⊢
  cases e with
  | poll hw =>
    by_cases hm : isMatch cfg s (Event.poll hw) = true
    · simp only [isMatch, decide_eq_true_eq] at hm
      obtain ⟨hpc, hf, ha⟩ := hm
      show (!(mainStep cfg s hw).PORTB.testBit 6) = true ↔ 0 < (mainStep cfg s hw).ledTimeout
      rw [mainStep_checkAddr cfg s hw hpc, if_pos hf, if_pos ha]
      show (!(clr s.PORTB 64).testBit 6) = true ↔ 0 < 20
      simp [testBit_clr_64]
    · have hm2 : isMatch cfg s (Event.poll hw) = false := by simpa using hm
      obtain ⟨h1, h2⟩ := mainStep_led cfg s hw hm2
      show (!(mainStep cfg s hw).PORTB.testBit 6) = true ↔ 0 < (mainStep cfg s hw).ledTimeout
      rw [h1, h2]; exact h
  | ovf =>
    show (!(TIMER0_OVF_vect s).PORTB.testBit 6) = true ↔ 0 < (TIMER0_OVF_vect s).ledTimeout
    rw [ovf_bit6, ovf_ledTimeout]
    by_cases hb : s.PORTB.testBit 6 = true
    · have h0 : s.ledTimeout = 0 := by
        by_contra hne
        have := h.mpr (by omega)
        simp [hb] at this
      simp [hb, h0]
    · have hb2 : s.PORTB.testBit 6 = false := by simpa using hb
      have hpos : 0 < s.ledTimeout := h.mp (by simp [hb2])
      rw [hb2]
      simp only [Bool.false_or, Bool.not_eq_true', decide_eq_false_iff_not]
      omega
  | compA => exact h
  | compB =>
    show (!(clr s.PORTB 1).testBit 6) = true ↔ 0 < s.ledTimeout
    rw [testBit_clr_1]
    simpa using h

theorem run_led_iff (cfg : Config) (evs : List Event) :
    ∀ s : State, (ledOn s = true ↔ 0 < s.ledTimeout) →
      (ledOn (run cfg s evs) = true ↔ 0 < (run cfg s evs).ledTimeout) := by
  induction evs with
  | nil => intro s h; exact h
  | cons e evs ih => intro s h; rw [run_cons]; exact ih _ (step_led_iff cfg s e h)

theorem addressMatches_interrupts (cfg : Config) (evs : List Event) :
    ∀ s : State, (∀ e ∈ evs, e.isPoll = false) → addressMatches cfg s evs = 0 := by
  induction evs with
  | nil => intro s _; rfl
  | cons e evs ih =>
    intro s h
    have he := h e (List.mem_cons_self _ _)
    have hm : isMatch cfg s e = false := by
      cases e with
      | poll hw => simp [Event.isPoll] at he
      | ovf => rfl
      | compA => rfl
      | compB => rfl
    simp only [addressMatches, hm]
    rw [ih _ (fun e2 h2 => h e2 (List.mem_cons_of_mem _ h2))]
    rfl

/-- The led after an acceptance that interrupts split between lines 188 and
189: it is off exactly if one of the overflow interrupts has taken the old
timeout to 0. -/
theorem acceptSplit_led (cfg : Config) (s : State) (irqs : List Event)
    (h : ∀ e ∈ irqs, e.isPoll = false) :
    (acceptSplit cfg s irqs).ledTimeout = 20 ∧
      ledOn (acceptSplit cfg s irqs) =
        !(decide (0 < s.ledTimeout) && decide (s.ledTimeout ≤ countOvf irqs)) := by
  refine ⟨rfl, ?_⟩
  obtain ⟨_, h2⟩ := run_led cfg irqs (ledSwitchOn s) (addressMatches_interrupts cfg irqs _ h)
  show (!(run cfg (ledSwitchOn s) irqs).PORTB.testBit 6) = _
  rw [h2]
  show (!((clr s.PORTB 64).testBit 6 ||
    (decide (0 < s.ledTimeout) && decide (s.ledTimeout ≤ countOvf irqs)))) = _
  rw [testBit_clr_64]
  simp

theorem run_interrupts_pc (cfg : Config) (evs : List Event) :
    ∀ s : State, (∀ e ∈ evs, e.isPoll = false) → (run cfg s evs).pc = s.pc := by
  induction evs with
  | nil => intro s _; rfl
  | cons e evs ih =>
    intro s h
    rw [run_cons, ih _ (fun e2 h2 => h e2 (List.mem_cons_of_mem _ h2))]
    exact (step_interrupt cfg s e (h e (List.mem_cons_self _ _))).1

/-- The reads of lines 162-177 alone bring `main` to the address check. -/
theorem run_addressPolls_take (cfg : Config) (s : State) (pinb a : Nat)
    (hpc : s.pc = Pc.waitStart) (hp : pinb &&& 160 = 0) :
    run cfg s ((addressPolls pinb a).take 4) = { s with pc := Pc.checkAddr } := by
  have h128 : pinb &&& 128 = 0 := by
    have : pinb &&& 128 = (pinb &&& 160) &&& 128 := by rw [Nat.and_assoc]; rfl
    rw [this, hp]; rfl
  have h32 : pinb &&& 32 = 0 := by
    have : pinb &&& 32 = (pinb &&& 160) &&& 32 := by rw [Nat.and_assoc]; rfl
    rw [this, hp]; rfl
  simp only [addressPolls, List.take_succ_cons, List.take_zero, run_cons, run_nil, step]
  rw [mainStep_waitStart cfg s _ hpc, if_neg sif_sif]
  rw [mainStep_waitStartEnd cfg { s with pc := Pc.waitStartEnd } _ rfl,
    if_neg (by simp [h128])]
  rw [mainStep_checkStop cfg { s with pc := Pc.checkStop } _ rfl, if_neg (by simp [h32])]
  rw [mainStep_waitAddr cfg { s with pc := Pc.waitAddr } _ rfl, if_neg oif_wait]

/-- From boot, 99 overflow events and the start of a transaction bring `main`
to the address check with the timeout at 1 and the led still on. -/
theorem run_to_last_tick :
    (run sourceConfig init
        (List.replicate 99 Event.ovf ++ (addressPolls 30 30).take 4)).pc = Pc.checkAddr ∧
      (run sourceConfig init
        (List.replicate 99 Event.ovf ++ (addressPolls 30 30).take 4)).ledTimeout = 1 ∧
      ledOn (run sourceConfig init
        (List.replicate 99 Event.ovf ++ (addressPolls 30 30).take 4)) = true := by
  have hirq : ∀ e ∈ List.replicate 99 Event.ovf, e.isPoll = false := by
    intro e he
    rw [List.eq_of_mem_replicate he]; rfl
  have hcount : countOvf (List.replicate 99 Event.ovf) = 99 := by
    simp [countOvf]
  have hpc := run_interrupts_pc sourceConfig _ init hirq
  obtain ⟨h1, h2⟩ := run_led sourceConfig _ init
    (addressMatches_interrupts sourceConfig _ init hirq)
  rw [hcount] at h1 h2
  have e1 : init.ledTimeout - 99 = 1 := by decide
  have e2 : (init.PORTB.testBit 6 ||
      (decide (0 < init.ledTimeout) && decide (init.ledTimeout ≤ 99))) = false := by decide
  rw [e1] at h1
  rw [e2] at h2
  rw [run_append, run_addressPolls_take sourceConfig _ 30 30 hpc (by decide)]
  generalize run sourceConfig init (List.replicate 99 Event.ovf) = Y at h1 h2
  refine ⟨rfl, h1, ?_⟩
  show (!Y.PORTB.testBit 6) = true
  rw [h2]
  rfl

/-- C13 fails on the code.  At boot the led is on and the timeout is 100, and
every event served as a whole keeps the led on exactly while the timeout is
not 0, so this holds after every run of whole events.  But the acceptance of
an address byte is two statements, line 188 switching the led on and line 189
setting the timeout, and interrupts are enabled: after an acceptance split by
interrupts the timeout is 20 and the led is off exactly if an overflow
interrupt in between has taken the old timeout to 0.  From boot, 99 overflow
events leave the timeout at 1; an address byte 0x1E accepted then, with one
overflow interrupt between lines 188 and 189, ends with the led off and the
timeout at 20. -/
theorem led_iff_timeout_split (cfg : Config) :
    (ledOn init = true ↔ 0 < init.ledTimeout) ∧
    (∀ (s : State) (e : Event), (ledOn s = true ↔ 0 < s.ledTimeout) →
      (ledOn (step cfg s e) = true ↔ 0 < (step cfg s e).ledTimeout)) ∧
    (∀ evs : List Event,
      ledOn (run cfg init evs) = true ↔ 0 < (run cfg init evs).ledTimeout) ∧
    (∀ (s : State) (hw : Hw), s.pc = Pc.checkAddr → hw.USISR &&& (1 <<< USIOIF) ≠ 0 →
      (hw.USIDR = 0 ∨ hw.USIDR = myAddress cfg hw.PINB) →
      mainStep cfg s hw = acceptSplit cfg s []) ∧
    (∀ (s : State) (irqs : List Event), (∀ e ∈ irqs, e.isPoll = false) →
      (acceptSplit cfg s irqs).ledTimeout = 20 ∧
      ledOn (acceptSplit cfg s irqs) =
        !(decide (0 < s.ledTimeout) && decide (s.ledTimeout ≤ countOvf irqs))) ∧
    ((run sourceConfig init
        (List.replicate 99 Event.ovf ++ (addressPolls 30 30).take 4)).pc = Pc.checkAddr ∧
      (run sourceConfig init
        (List.replicate 99 Event.ovf ++ (addressPolls 30 30).take 4)).ledTimeout = 1 ∧
      ledOn (run sourceConfig init
        (List.replicate 99 Event.ovf ++ (addressPolls 30 30).take 4)) = true ∧
      (acceptSplit sourceConfig (run sourceConfig init
        (List.replicate 99 Event.ovf ++ (addressPolls 30 30).take 4)) [Event.ovf]).ledTimeout
        = 20 ∧
      ledOn (acceptSplit sourceConfig (run sourceConfig init
        (List.replicate 99 Event.ovf ++ (addressPolls 30 30).take 4)) [Event.ovf]) = false) := by
  have h0 : ledOn init = true ↔ 0 < init.ledTimeout := by decide
  refine ⟨h0, step_led_iff cfg, fun evs => run_led_iff cfg evs init h0, ?_,
    acceptSplit_led cfg, ?_⟩
  · intro s hw hpc hf ha
    rw [mainStep_checkAddr cfg s hw hpc, if_pos hf, if_pos ha]
    rfl
  · obtain ⟨r1, r2, r3⟩ := run_to_last_tick
    obtain ⟨a1, a2⟩ := acceptSplit_led sourceConfig
      (run sourceConfig init (List.replicate 99 Event.ovf ++ (addressPolls 30 30).take 4))
      [Event.ovf] (by decide)
    refine ⟨r1, r2, r3, a1, ?_⟩
    rw [a2, r2]
    decide

/-- Witness of C13's failure: the timeout at 1 with the led on, and one
overflow interrupt between lines 188 and 189. -/
theorem led_iff_timeout_split_witness :
    (∀ e ∈ [Event.ovf], e.isPoll = false) ∧
      ledOn ({ init with ledTimeout := 1, pc := Pc.checkAddr } : State) = true ∧
      (acceptSplit sourceConfig { init with ledTimeout := 1, pc := Pc.checkAddr }
        [Event.ovf]).ledTimeout = 20 ∧
      ledOn (acceptSplit sourceConfig { init with ledTimeout := 1, pc := Pc.checkAddr }
        [Event.ovf]) =
        !(decide (0 < ({ init with ledTimeout := 1, pc := Pc.checkAddr } : State).ledTimeout) &&
          decide (({ init with ledTimeout := 1, pc := Pc.checkAddr } : State).ledTimeout ≤
            countOvf [Event.ovf])) :=
  ⟨by decide, by decide,
    (led_iff_timeout_split sourceConfig).2.2.2.2.1
      { init with ledTimeout := 1, pc := Pc.checkAddr } [Event.ovf] (by decide)⟩

/-- C7 fails on the code.  An acceptance that no interrupt splits sets the led
timeout to 20 with the led on, and in any run from there without a further
accepted address byte the timeout is `20 - j` after `j` overflow events and
the led is on exactly while fewer than 20 of them have been served; an
overflow event at timeout 0 changes neither.  But the acceptance is line 188
(led on) and line 189 (timeout 20) with interrupts enabled: after an
acceptance split by interrupts the timeout still counts `20 - j`, while the
led is on after `j` overflow events only if it was on after the acceptance,
which it is not when an overflow interrupt in between has taken the old
timeout to 0.  From boot, 99 overflow events leave the timeout at 1; the
address byte 0x1E accepted then with one overflow interrupt between lines 188
and 189 sets the timeout to 20 with the led off, and the led is off after
every number of further overflow events. -/
theorem activity_countdown (cfg : Config) (s0 : State) (hw : Hw)
    (hpc : s0.pc = Pc.checkAddr) (hoif : hw.USISR &&& (1 <<< USIOIF) ≠ 0)
    (hacc : hw.USIDR = 0 ∨ hw.USIDR = myAddress cfg hw.PINB) :
    (mainStep cfg s0 hw).ledTimeout = 20 ∧ ledOn (mainStep cfg s0 hw) = true ∧
    (∀ evs : List Event, addressMatches cfg (mainStep cfg s0 hw) evs = 0 →
      (run cfg (mainStep cfg s0 hw) evs).ledTimeout = 20 - countOvf evs ∧
      ledOn (run cfg (mainStep cfg s0 hw) evs) = decide (countOvf evs < 20)) ∧
    (∀ t : State, t.ledTimeout = 0 →
      (TIMER0_OVF_vect t).ledTimeout = 0 ∧ ledOn (TIMER0_OVF_vect t) = ledOn t) ∧
    mainStep cfg s0 hw = acceptSplit cfg s0 [] ∧
    (∀ irqs : List Event, (∀ e ∈ irqs, e.isPoll = false) →
      (acceptSplit cfg s0 irqs).ledTimeout = 20 ∧
      ledOn (acceptSplit cfg s0 irqs) =
        !(decide (0 < s0.ledTimeout) && decide (s0.ledTimeout ≤ countOvf irqs)) ∧
      (∀ evs : List Event, addressMatches cfg (acceptSplit cfg s0 irqs) evs = 0 →
        (run cfg (acceptSplit cfg s0 irqs) evs).ledTimeout = 20 - countOvf evs ∧
        ledOn (run cfg (acceptSplit cfg s0 irqs) evs) =
          (ledOn (acceptSplit cfg s0 irqs) && decide (countOvf evs < 20)))) ∧
    ((run sourceConfig init
        (List.replicate 99 Event.ovf ++ (addressPolls 30 30).take 4)).pc = Pc.checkAddr ∧
      (run sourceConfig init
        (List.replicate 99 Event.ovf ++ (addressPolls 30 30).take 4)).ledTimeout = 1 ∧
      ledOn (run sourceConfig init
        (List.replicate 99 Event.ovf ++ (addressPolls 30 30).take 4)) = true ∧
      (∀ j : Nat,
        (run sourceConfig (acceptSplit sourceConfig (run sourceConfig init
            (List.replicate 99 Event.ovf ++ (addressPolls 30 30).take 4)) [Event.ovf])
          (List.replicate j Event.ovf)).ledTimeout = 20 - j ∧
        ledOn (run sourceConfig (acceptSplit sourceConfig (run sourceConfig init
            (List.replicate 99 Event.ovf ++ (addressPolls 30 30).take 4)) [Event.ovf])
          (List.replicate j Event.ovf)) = false)) := by
  have hs : mainStep cfg s0 hw =
      { sendAck { s0 with PORTB := clr s0.PORTB 64, ledTimeout := 20 } with
        pc := Pc.waitAddrAck } := by
    rw [mainStep_checkAddr cfg s0 hw hpc, if_pos hoif, if_pos hacc]
  have h20 : (mainStep cfg s0 hw).ledTimeout = 20 := by rw [hs]; rfl
  have hb : (mainStep cfg s0 hw).PORTB.testBit 6 = false := by
    rw [hs]
    show (clr s0.PORTB 64).testBit 6 = false
    simp [testBit_clr_64]
  have hsplit : ∀ (cfg2 : Config) (s : State) (irqs : List Event),
      (∀ e ∈ irqs, e.isPoll = false) →
      ∀ evs : List Event, addressMatches cfg2 (acceptSplit cfg2 s irqs) evs = 0 →
        (run cfg2 (acceptSplit cfg2 s irqs) evs).ledTimeout = 20 - countOvf evs ∧
        ledOn (run cfg2 (acceptSplit cfg2 s irqs) evs) =
          (ledOn (acceptSplit cfg2 s irqs) && decide (countOvf evs < 20)) := by
    intro cfg2 s irqs hirq evs hm
    obtain ⟨a1, _⟩ := acceptSplit_led cfg2 s irqs hirq
    obtain ⟨h1, h2⟩ := run_led cfg2 evs (acceptSplit cfg2 s irqs) hm
    rw [a1] at h1 h2
    refine ⟨h1, ?_⟩
    unfold ledOn
    rw [h2, Bool.eq_iff_iff]
    simp
  refine ⟨h20, ?_, ?_, ?_, ?_, ?_, ?_⟩
  · simp [ledOn, hb]
  · intro evs hm
    obtain ⟨h1, h2⟩ := run_led cfg evs (mainStep cfg s0 hw) hm
    rw [h20] at h1 h2
    refine ⟨h1, ?_⟩
    unfold ledOn
    rw [h2, hb, Bool.eq_iff_iff]
    simp
  · intro t ht
    refine ⟨by rw [ovf_ledTimeout, ht], ?_⟩
    unfold ledOn
    rw [ovf_bit6, ht]
    simp
  · rw [hs]; rfl
  · intro irqs hirq
    obtain ⟨a1, a2⟩ := acceptSplit_led cfg s0 irqs hirq
    exact ⟨a1, a2, hsplit cfg s0 irqs hirq⟩
  · obtain ⟨r1, r2, r3⟩ := run_to_last_tick
    refine ⟨r1, r2, r3, ?_⟩
    intro j
    have hirq : ∀ e ∈ [Event.ovf], e.isPoll = false := by decide
    have hj : ∀ e ∈ List.replicate j Event.ovf, e.isPoll = false := by
      intro e he
      rw [List.eq_of_mem_replicate he]; rfl
    have hcount : countOvf (List.replicate j Event.ovf) = j := by
      simp [countOvf]
    obtain ⟨_, a2⟩ := acceptSplit_led sourceConfig
      (run sourceConfig init (List.replicate 99 Event.ovf ++ (addressPolls 30 30).take 4))
      [Event.ovf] hirq
    rw [r2] at a2
    have a3 : ledOn (acceptSplit sourceConfig (run sourceConfig init
        (List.replicate 99 Event.ovf ++ (addressPolls 30 30).take 4)) [Event.ovf]) = false := by
      rw [a2]; decide
    obtain ⟨f1, f2⟩ := hsplit sourceConfig _ [Event.ovf] hirq (List.replicate j Event.ovf)
      (addressMatches_interrupts sourceConfig _ _ hj)
    rw [hcount] at f1 f2
    refine ⟨f1, ?_⟩
    rw [f2, a3]
    rfl

/-- Witness of C7's failure: the address byte 0x1E accepted at timeout 1 with
one overflow interrupt between lines 188 and 189, then nineteen overflow
events: the led is off. -/
theorem activity_countdown_witness :
    ({ init with ledTimeout := 1, pc := Pc.checkAddr } : State).pc = Pc.checkAddr ∧
      (64 : Nat) &&& (1 <<< USIOIF) ≠ 0 ∧
      ((30 : Nat) = 0 ∨ 30 = myAddress sourceConfig 30) ∧
      (∀ e ∈ [Event.ovf], e.isPoll = false) ∧
      ledOn ({ init with ledTimeout := 1, pc := Pc.checkAddr } : State) = true ∧
      ledOn (acceptSplit sourceConfig { init with ledTimeout := 1, pc := Pc.checkAddr }
        [Event.ovf]) = false ∧
      ledOn (run sourceConfig
          (acceptSplit sourceConfig { init with ledTimeout := 1, pc := Pc.checkAddr } [Event.ovf])
          (List.replicate 19 Event.ovf)) =
        (ledOn (acceptSplit sourceConfig { init with ledTimeout := 1, pc := Pc.checkAddr }
          [Event.ovf]) && decide (countOvf (List.replicate 19 Event.ovf) < 20)) :=
  ⟨rfl, by decide, by decide, by decide, by decide, by decide,
    (((activity_countdown sourceConfig { init with ledTimeout := 1, pc := Pc.checkAddr }
      ⟨64, 30, 30⟩ rfl (by decide) (by decide)).2.2.2.2.2.1 [Event.ovf] (by decide)).2.2
      (List.replicate 19 Event.ovf) (by decide)).2⟩

/-! ## Who writes what -/

theorem forTest_frame (s : State) (c : Nat) :
    (forTest s c).OCR0A = s.OCR0A ∧ (forTest s c).OCR0B = s.OCR0B ∧
      (forTest s c).PORTA = s.PORTA ∧ (forTest s c).PORTD = s.PORTD := by
  unfold forTest
  split <;> exact ⟨rfl, rfl, rfl, rfl⟩

/-- No statement of `main` writes a compare register, port A or port D, and
of port B only bit 6 is written. -/
theorem mainStep_frame (cfg : Config) (s : State) (hw : Hw) :
    (mainStep cfg s hw).OCR0A = s.OCR0A ∧ (mainStep cfg s hw).OCR0B = s.OCR0B ∧
      (mainStep cfg s hw).PORTA = s.PORTA ∧ (mainStep cfg s hw).PORTD = s.PORTD ∧
      (mainStep cfg s hw).PORTB.testBit 0 = s.PORTB.testBit 0 := by
  cases hpc : s.pc with
  | waitStart =>
    rw [mainStep_waitStart cfg s hw hpc]
    split <;> exact ⟨rfl, rfl, rfl, rfl, rfl⟩
  | waitStartEnd =>
    rw [mainStep_waitStartEnd cfg s hw hpc]
    split <;> exact ⟨rfl, rfl, rfl, rfl, rfl⟩
  | checkStop =>
    rw [mainStep_checkStop cfg s hw hpc]
    split <;> exact ⟨rfl, rfl, rfl, rfl, rfl⟩
  | waitAddr =>
    rw [mainStep_waitAddr cfg s hw hpc]
    split <;> exact ⟨rfl, rfl, rfl, rfl, rfl⟩
  | checkAddr =>
    rw [mainStep_checkAddr cfg s hw hpc]
    split
    · split
      · refine ⟨rfl, rfl, rfl, rfl, ?_⟩
        show (clr s.PORTB 64).testBit 0 = _
        rw [testBit_clr_64]
        simp [-Nat.testBit_zero]
      · exact ⟨rfl, rfl, rfl, rfl, rfl⟩
    · exact ⟨rfl, rfl, rfl, rfl, rfl⟩
  | waitAddrAck =>
    rw [mainStep_waitAddrAck cfg s hw hpc]
    split
    · exact ⟨rfl, rfl, rfl, rfl, rfl⟩
    · obtain ⟨f1, f2, f3, f4⟩ := forTest_frame { s with DDRB := clr s.DDRB 32 } 0
      exact ⟨f1, f2, f3, f4, by rw [forTest_PORTB]⟩
  | waitData c =>
    rw [mainStep_waitData cfg s hw c hpc]
    split <;> exact ⟨rfl, rfl, rfl, rfl, rfl⟩
  | checkData c =>
    rw [mainStep_checkData cfg s hw c hpc]
    split <;> exact ⟨rfl, rfl, rfl, rfl, rfl⟩
  | waitDataAck c =>
    rw [mainStep_waitDataAck cfg s hw c hpc]
    split
    · exact ⟨rfl, rfl, rfl, rfl, rfl⟩
    · obtain ⟨f1, f2, f3, f4⟩ :=
        forTest_frame { s with DDRB := clr s.DDRB 32 } ((c + 1) % 256)
      exact ⟨f1, f2, f3, f4, by rw [forTest_PORTB]⟩
  | halted =>
    rw [mainStep_halted cfg s hw hpc]
    exact ⟨rfl, rfl, rfl, rfl, rfl⟩

theorem pinHigh_mainStep (cfg : Config) (s : State) (hw : Hw) (c : Nat) :
    pinHigh (mainStep cfg s hw) c = pinHigh s c := by
  obtain ⟨_, _, hA, hD, hB⟩ := mainStep_frame cfg s hw
  unfold pinHigh
  rcases c with _ | _ | _ | _ | _ | _ | _ | _ | _ | c <;>
    simp only [servoPin, portReg, hA, hD, hB]

/-- Only the statement of line 212 changes the servo values. -/
theorem step_servo_of_not_store (cfg : Config) (s : State) (e : Event)
    (h : isStore s e = false) : (step cfg s e).servo = s.servo := by
  cases e with
  | ovf => exact ovf_servo s
  | compA => rfl
  | compB => rfl
  | poll hw =>
    show (mainStep cfg s hw).servo = s.servo
    cases hpc : s.pc with
    | waitStart =>
      rw [mainStep_waitStart cfg s hw hpc]
      split <;> rfl
    | waitStartEnd =>
      rw [mainStep_waitStartEnd cfg s hw hpc]
      split <;> rfl
    | checkStop =>
      rw [mainStep_checkStop cfg s hw hpc]
      split <;> rfl
    | waitAddr =>
      rw [mainStep_waitAddr cfg s hw hpc]
      split <;> rfl
    | checkAddr =>
      rw [mainStep_checkAddr cfg s hw hpc]
      split
      · split <;> rfl
      · rfl
    | waitAddrAck =>
      rw [mainStep_waitAddrAck cfg s hw hpc]
      split
      · rfl
      · rw [forTest_servo]
    | waitData c =>
      rw [mainStep_waitData cfg s hw c hpc]
      split <;> rfl
    | checkData c =>
      have hf : hw.USISR &&& (1 <<< USIOIF) = 0 := by
        simpa [isStore, hpc] using h
      rw [mainStep_checkData cfg s hw c hpc, if_neg (not_not.mpr hf)]
      rfl
    | waitDataAck c =>
      rw [mainStep_waitDataAck cfg s hw c hpc]
      split
      · rfl
      · rw [forTest_servo]
    | halted =>
      rw [mainStep_halted cfg s hw hpc]

theorem rd_replicate_zero (n i : Nat) : rd (List.replicate n 0) i = 0 := by
  unfold rd
  by_cases h : i < n
  · rw [List.getD_eq_getElem _ _ (by rw [List.length_replicate]; exact h)]
    simp
  · rw [List.getD_eq_default _ _ (by rw [List.length_replicate]; omega)]

/-- As long as no data byte has been stored the servo values are all 0 and
every servo pin stays low. -/
theorem run_no_store (cfg : Config) (evs : List Event) :
    ∀ s : State, s.servo = List.replicate 10 0 → s.loop ≤ 4 →
      (∀ c : Nat, c < 10 → pinHigh s c = false) → dataStores cfg s evs = 0 →
      (run cfg s evs).servo = List.replicate 10 0 ∧
      (∀ c : Nat, c < 10 → pinHigh (run cfg s evs) c = false) := by
  induction evs with
  | nil => intro s h1 _ h3 _; exact ⟨h1, h3⟩
  | cons e evs ih =>
    intro s h1 h2 h3 hd
    simp only [dataStores] at hd
    have hs : isStore s e = false := by
      by_cases hx : isStore s e = true
      · rw [if_pos hx] at hd; omega
      · simpa using hx
    have hd2 : dataStores cfg (step cfg s e) evs = 0 := by omega
    rw [run_cons]
    refine ih _ ((step_servo_of_not_store cfg s e hs).trans h1) (step_loop_le cfg s e h2) ?_ hd2
    intro c hc
    cases e with
    | poll hw => exact (pinHigh_mainStep cfg s hw c).trans (h3 c hc)
    | ovf =>
      show pinHigh (TIMER0_OVF_vect s) c = false
      rw [pinHigh_ovf s c h2 hc, h1, rd_replicate_zero, rd_replicate_zero, h3 c hc]
      simp
    | compA =>
      show pinHigh (TIMER0_COMPA_vect s) c = false
      rw [pinHigh_compA s c hc, h3 c hc]
      rfl
    | compB =>
      show pinHigh (TIMER0_COMPB_vect s) c = false
      rw [pinHigh_compB s c hc, h3 c hc]
      rfl

/-- C16: the three interrupts leave the servo values as they are, and so
does every statement of `main` but the store of line 212; the values are all
0 at boot, so in any run from boot in which no data byte has been stored yet
they are still all 0 and every servo pin is still low, whatever overflow
events have been served.  No statement of `main` changes the cursor, a
compare register or the level of a servo pin. -/
theorem store_written_by_data_phase (cfg : Config) :
    (∀ s : State, (TIMER0_OVF_vect s).servo = s.servo ∧
      (TIMER0_COMPA_vect s).servo = s.servo ∧ (TIMER0_COMPB_vect s).servo = s.servo) ∧
    (∀ (s : State) (e : Event), isStore s e = false → (step cfg s e).servo = s.servo) ∧
    (boot.servo = List.replicate 10 0 ∧ init.servo = List.replicate 10 0) ∧
    (∀ evs : List Event, dataStores cfg init evs = 0 →
      (run cfg init evs).servo = List.replicate 10 0 ∧
      (∀ c : Nat, c < 10 → pinHigh (run cfg init evs) c = false)) ∧
    (∀ (s : State) (hw : Hw),
      (mainStep cfg s hw).loop = s.loop ∧ (mainStep cfg s hw).OCR0A = s.OCR0A ∧
      (mainStep cfg s hw).OCR0B = s.OCR0B ∧
      (∀ c : Nat, pinHigh (mainStep cfg s hw) c = pinHigh s c)) := by
  refine ⟨fun s => ⟨ovf_servo s, rfl, rfl⟩, step_servo_of_not_store cfg, ⟨rfl, rfl⟩, ?_, ?_⟩
  · intro evs hd
    exact run_no_store cfg evs init rfl (by decide) (by decide) hd
  · intro s hw
    obtain ⟨f1, f2, _, _, _⟩ := mainStep_frame cfg s hw
    exact ⟨mainStep_loop cfg s hw, f1, f2, pinHigh_mainStep cfg s hw⟩

/-- Witness of C16: two overflow events around a broadcast transaction
without data bytes. -/
theorem store_written_by_data_phase_witness :
    dataStores sourceConfig init (Event.ovf :: transaction 30 0 [] ++ [Event.ovf]) = 0 ∧
      (run sourceConfig init (Event.ovf :: transaction 30 0 [] ++ [Event.ovf])).servo =
        List.replicate 10 0 ∧
      (∀ c : Nat, c < 10 →
        pinHigh (run sourceConfig init (Event.ovf :: transaction 30 0 [] ++ [Event.ovf])) c =
          false) :=
  ⟨by decide,
    (store_written_by_data_phase sourceConfig).2.2.2.1
      (Event.ovf :: transaction 30 0 [] ++ [Event.ovf]) (by decide)⟩

/-! ## Stop conditions at the busy waits -/

theorem forTest_channel (s : State) (k c : Nat)
    (h : (forTest s k).pc = Pc.waitData c ∨ (forTest s k).pc = Pc.checkData c ∨
      (forTest s k).pc = Pc.waitDataAck c) : c < 10 := by
  rw [forTest_pc] at h
  by_cases hk : k < 10
  · rw [if_pos hk] at h
    rcases h with h | h | h
    · injection h with h; omega
    · cases h
    · cases h
  · rw [if_neg hk] at h
    rcases h with h | h | h <;> cases h

/-- The channel at which `main` stands in the data phase stays below 10. -/
theorem mainStep_channel (cfg : Config) (s : State) (hw : Hw)
    (h : ∀ c : Nat, (s.pc = Pc.waitData c ∨ s.pc = Pc.checkData c ∨ s.pc = Pc.waitDataAck c) →
      c < 10) :
    ∀ c : Nat, ((mainStep cfg s hw).pc = Pc.waitData c ∨ (mainStep cfg s hw).pc = Pc.checkData c ∨
      (mainStep cfg s hw).pc = Pc.waitDataAck c) → c < 10 := by
  intro c
  cases hpc : s.pc with
  | waitStart =>
    rw [mainStep_waitStart cfg s hw hpc]
    split
    · exact h c
    · rintro (hx | hx | hx) <;> cases hx
  | waitStartEnd =>
    rw [mainStep_waitStartEnd cfg s hw hpc]
    split
    · exact h c
    · rintro (hx | hx | hx) <;> cases hx
  | checkStop =>
    rw [mainStep_checkStop cfg s hw hpc]
    split <;> rintro (hx | hx | hx) <;> cases hx
  | waitAddr =>
    rw [mainStep_waitAddr cfg s hw hpc]
    split
    · exact h c
    · rintro (hx | hx | hx) <;> cases hx
  | checkAddr =>
    rw [mainStep_checkAddr cfg s hw hpc]
    split
    · split <;> rintro (hx | hx | hx) <;> cases hx
    · rintro (hx | hx | hx) <;> cases hx
  | waitAddrAck =>
    rw [mainStep_waitAddrAck cfg s hw hpc]
    split
    · exact h c
    · exact forTest_channel _ _ c
  | waitData k =>
    have hk : k < 10 := h k (Or.inl hpc)
    rw [mainStep_waitData cfg s hw k hpc]
    split
    · exact h c
    · rintro (hx | hx | hx)
      · cases hx
      · injection hx with hx; omega
      · cases hx
  | checkData k =>
    have hk : k < 10 := h k (Or.inr (Or.inl hpc))
    rw [mainStep_checkData cfg s hw k hpc]
    split
    · rintro (hx | hx | hx)
      · cases hx
      · cases hx
      · injection hx with hx; omega
    · rintro (hx | hx | hx) <;> cases hx
  | waitDataAck k =>
    rw [mainStep_waitDataAck cfg s hw k hpc]
    split
    · exact h c
    · exact forTest_channel _ _ c
  | halted =>
    rw [mainStep_halted cfg s hw hpc]
    exact h c

theorem mainStep_length (cfg : Config) (s : State) (hw : Hw) :
    (mainStep cfg s hw).servo.length = s.servo.length := by
  by_cases hs : isStore s (Event.poll hw) = true
  · cases hpc : s.pc with
    | checkData k =>
      rw [mainStep_checkData cfg s hw k hpc]
      split
      · show (s.servo.set k (hw.USIDR % 256)).length = _
        rw [List.length_set]
      · rfl
    | _ => simp [isStore, hpc] at hs
  · have hs2 : isStore s (Event.poll hw) = false := by simpa using hs
    have := step_servo_of_not_store cfg s (Event.poll hw) hs2
    show (step cfg s (Event.poll hw)).servo.length = _
    rw [this]

/-- In every state reached from boot the array has its ten elements, the
cursor is at most 4 and the channel of the data phase is below 10. -/
theorem run_wf (cfg : Config) (evs : List Event) :
    ∀ s : State, s.servo.length = 10 → s.loop ≤ 4 →
      (∀ c : Nat, (s.pc = Pc.waitData c ∨ s.pc = Pc.checkData c ∨ s.pc = Pc.waitDataAck c) →
        c < 10) →
      (run cfg s evs).servo.length = 10 ∧ (run cfg s evs).loop ≤ 4 ∧
      (∀ c : Nat, ((run cfg s evs).pc = Pc.waitData c ∨ (run cfg s evs).pc = Pc.checkData c ∨
        (run cfg s evs).pc = Pc.waitDataAck c) → c < 10) := by
  induction evs with
  | nil => intro s h1 h2 h3; exact ⟨h1, h2, h3⟩
  | cons e evs ih =>
    intro s h1 h2 h3
    rw [run_cons]
    apply ih
    · cases e with
      | poll hw => exact (mainStep_length cfg s hw).trans h1
      | ovf => show (TIMER0_OVF_vect s).servo.length = 10; rw [ovf_servo]; exact h1
      | compA => exact h1
      | compB => exact h1
    · exact step_loop_le cfg s e h2
    · cases e with
      | poll hw => exact mainStep_channel cfg s hw h3
      | ovf =>
        intro c hc
        have e : (step cfg s Event.ovf).pc = s.pc := ovf_pc s
        rw [e] at hc
        exact h3 c hc
      | compA => exact h3
      | compB => exact h3

theorem dataPolls_append (pinb : Nat) (xs ys : List Nat) :
    dataPolls pinb (xs ++ ys) = dataPolls pinb xs ++ dataPolls pinb ys := by
  induction xs with
  | nil => rfl
  | cons x xs ih =>
    show bytePolls pinb x ++ dataPolls pinb (xs ++ ys) = _
    rw [ih]
    simp only [dataPolls, List.append_assoc]

/-- The reads of an accepted transaction up to its last data byte. -/
theorem run_upto_data (cfg : Config) (s : State) (pinb a : Nat) (bs : List Nat)
    (hpc : s.pc = Pc.waitStart) (hl : s.servo.length = 10) (hp : pinb &&& 160 = 0)
    (hacc : a = 0 ∨ a = myAddress cfg pinb) (hn : bs.length ≤ 10) (hb : ∀ b ∈ bs, b < 256) :
    (run cfg s (addressPolls pinb a ++ ackPoll pinb :: dataPolls pinb bs)).servo =
        bs ++ s.servo.drop bs.length ∧
      (run cfg s (addressPolls pinb a ++ ackPoll pinb :: dataPolls pinb bs)).pc =
        if bs.length < 10 then Pc.waitData bs.length else Pc.waitStart := by
  rw [run_append, run_addressPolls cfg s pinb a hpc hp,
    mainStep_checkAddr cfg { s with pc := Pc.checkAddr } _ rfl, if_pos oif_oif, if_pos hacc,
    run_cons, ackPoll]
  simp only [step]
  rw [mainStep_waitAddrAck cfg _ _ rfl, if_neg oif_oif]
  have h0 : (0 : Nat) < 10 := by decide
  generalize ht : forTest _ 0 = t
  have t1 : t.servo = s.servo := by rw [← ht, forTest_servo]; rfl
  have t5 : t.pc = Pc.waitData 0 := by rw [← ht, forTest_pc, if_pos h0]
  obtain ⟨d1, _, _, _, d5⟩ := run_dataPolls cfg pinb bs 0 t t5 h0 (by omega)
    (by rw [t1]; exact hl) hb
  refine ⟨?_, ?_⟩
  · rw [d1, t1]; simp
  · rw [d5]; simp

/-- An accepted transaction with ten data bytes or more, read by `main`
without interruption: the first ten bytes are the servo values, and `main` is
at the wait for a start condition from the tenth byte on. -/
theorem run_transaction_long (cfg : Config) (s : State) (pinb a : Nat) (bs : List Nat)
    (hpc : s.pc = Pc.waitStart) (hl : s.servo.length = 10) (hp : pinb &&& 160 = 0)
    (hacc : a = 0 ∨ a = myAddress cfg pinb) (hn : 10 ≤ bs.length) (hb : ∀ b ∈ bs, b < 256) :
    (run cfg s (addressPolls pinb a ++ ackPoll pinb :: dataPolls pinb (bs.take 10))).pc =
        Pc.waitStart ∧
      (run cfg s (transaction pinb a bs)).servo = bs.take 10 ∧
      (run cfg s (transaction pinb a bs)).pc = Pc.waitStart := by
  have hlen : (bs.take 10).length = 10 := by
    rw [List.length_take]; omega
  have hb10 : ∀ b ∈ bs.take 10, b < 256 := fun b h => hb b (List.mem_of_mem_take h)
  obtain ⟨u1, u2⟩ := run_upto_data cfg s pinb a (bs.take 10) hpc hl hp hacc (by omega) hb10
  rw [hlen] at u1 u2
  rw [if_neg (by decide)] at u2
  have hdrop : s.servo.drop 10 = [] := by
    apply List.drop_eq_nil_of_le; omega
  rw [hdrop, List.append_nil] at u1
  have hsplit : transaction pinb a bs =
      (addressPolls pinb a ++ ackPoll pinb :: dataPolls pinb (bs.take 10)) ++
        (dataPolls pinb (bs.drop 10) ++ stopPolls pinb) := by
    have e : dataPolls pinb bs = dataPolls pinb (bs.take 10) ++ dataPolls pinb (bs.drop 10) := by
      rw [← dataPolls_append, List.take_append_drop]
    rw [transaction, e]
    simp only [List.append_assoc, List.cons_append]
  have hidle : run cfg
      (run cfg s (addressPolls pinb a ++ ackPoll pinb :: dataPolls pinb (bs.take 10)))
      (dataPolls pinb (bs.drop 10) ++ stopPolls pinb) =
      run cfg s (addressPolls pinb a ++ ackPoll pinb :: dataPolls pinb (bs.take 10)) := by
    apply run_waitStart_idle cfg _ _ u2
    intro e he
    rcases List.mem_append.mp he with h | h
    · exact dataPolls_noStart _ _ e h
    · exact stopPolls_noStart _ e h
  refine ⟨u2, ?_, ?_⟩
  · rw [hsplit, run_append, hidle, u1]
  · rw [hsplit, run_append, hidle, u2]

/-- C18: in every state reached from boot the array has ten elements, the
cursor is at most 4 and the channel of the data phase is below 10, so every
index at which an event reads or writes `servo` (cursor and cursor + 5 before
and after the advance for the overflow interrupt, the channel for the store
of a data byte) is below 10.  Of a transaction with ten data bytes or more
the first ten are stored and the later ones change nothing: `main` is back at
the wait for a start condition once the tenth byte is acknowledged. -/
theorem indices_in_range (cfg : Config) :
    (∀ (evs : List Event) (e : Event) (i : Nat), i ∈ indicesUsed (run cfg init evs) e →
      i < 10 ∧ i < (run cfg init evs).servo.length) ∧
    (∀ evs : List Event,
      (run cfg init evs).servo.length = 10 ∧ (run cfg init evs).loop ≤ 4 ∧
      (∀ c : Nat, ((run cfg init evs).pc = Pc.waitData c ∨
        (run cfg init evs).pc = Pc.checkData c ∨
        (run cfg init evs).pc = Pc.waitDataAck c) → c < 10)) ∧
    (∀ (s : State) (pinb a : Nat) (bs : List Nat) (evs : List Event),
      s.pc = Pc.waitStart → s.servo.length = 10 → pinb &&& 160 = 0 →
      (a = 0 ∨ a = myAddress cfg pinb) → 10 ≤ bs.length → (∀ b ∈ bs, b < 256) →
      evs.filter Event.isPoll = transaction pinb a bs →
      (run cfg s evs).servo = bs.take 10 ∧ (run cfg s evs).pc = Pc.waitStart ∧
      (run cfg s (addressPolls pinb a ++ ackPoll pinb :: dataPolls pinb (bs.take 10))).pc =
        Pc.waitStart) := by
  have hwf : ∀ evs : List Event,
      (run cfg init evs).servo.length = 10 ∧ (run cfg init evs).loop ≤ 4 ∧
      (∀ c : Nat, ((run cfg init evs).pc = Pc.waitData c ∨
        (run cfg init evs).pc = Pc.checkData c ∨
        (run cfg init evs).pc = Pc.waitDataAck c) → c < 10) := by
    intro evs
    apply run_wf cfg evs init rfl (by decide)
    intro c hc
    rcases hc with h | h | h <;> cases h
  refine ⟨?_, hwf, ?_⟩
  · intro evs e i hi
    obtain ⟨w1, w2, w3⟩ := hwf evs
    rw [w1]
    have hn := nextLoop_le (run cfg init evs).loop
    suffices h : i < 10 from ⟨h, h⟩
    cases e with
    | ovf =>
      simp only [indicesUsed, List.mem_cons, List.mem_singleton, List.not_mem_nil,
        or_false] at hi
      omega
    | compA => simp [indicesUsed] at hi
    | compB => simp [indicesUsed] at hi
    | poll hw =>
      cases hpc : (run cfg init evs).pc with
      | checkData k =>
        simp only [indicesUsed, hpc] at hi
        split at hi
        · simp only [List.mem_singleton] at hi
          rw [hi]; exact w3 k (Or.inr (Or.inl hpc))
        · simp at hi
      | _ => simp [indicesUsed, hpc] at hi
  · intro s pinb a bs evs hpc hl hp hacc hn hb hevs
    obtain ⟨v1, v2⟩ := run_view cfg evs s s rfl rfl
    obtain ⟨l1, l2, l3⟩ := run_transaction_long cfg s pinb a bs hpc hl hp hacc hn hb
    rw [hevs] at v1 v2
    exact ⟨v2.trans l2, v1.trans l3, l1⟩

/-- Witness of C18: twelve data bytes to address 0x1E of the source
configuration; the eleventh and twelfth are not stored. -/
theorem indices_in_range_witness :
    init.pc = Pc.waitStart ∧ init.servo.length = 10 ∧ (30 : Nat) &&& 160 = 0 ∧
      ((30 : Nat) = 0 ∨ 30 = myAddress sourceConfig 30) ∧
      (10 : Nat) ≤ [1, 2, 3, 4, 5, 6, 7, 8, 9, 10, 11, 12].length ∧
      (run sourceConfig init
        (transaction 30 30 [1, 2, 3, 4, 5, 6, 7, 8, 9, 10, 11, 12])).servo =
        [1, 2, 3, 4, 5, 6, 7, 8, 9, 10, 11, 12].take 10 :=
  ⟨rfl, rfl, by decide, by decide, by decide,
    ((indices_in_range sourceConfig).2.2 init 30 30 [1, 2, 3, 4, 5, 6, 7, 8, 9, 10, 11, 12]
      (transaction 30 30 [1, 2, 3, 4, 5, 6, 7, 8, 9, 10, 11, 12]) rfl rfl (by decide)
      (by decide) (by decide) (by decide) (by decide)).1⟩

/-! ## The read/write bit of the address byte -/

/-- C19: line 185 compares the whole byte.  For address constants that are
bits, the byte made of the device address and read/write bit 1, and the byte
0x01, fail the comparison: no acknowledge sequence is started, SDA stays an
input, servo values, led timeout and port B are unchanged and `main` waits for
the next start condition.  Every byte that is accepted has read/write bit 0. -/
theorem read_address_rejected (cfg : Config) (s : State) (hw : Hw)
    (h4 : cfg.b4 ≤ 1) (h5 : cfg.b5 ≤ 1) (h6 : cfg.b6 ≤ 1) (hpc : s.pc = Pc.checkAddr)
    (hbyte : hw.USIDR = 2 * deviceAddress cfg hw.PINB + 1 ∨ hw.USIDR = 1) :
    ((mainStep cfg s hw).pc = Pc.waitStart ∧ (mainStep cfg s hw).acks = s.acks ∧
      (mainStep cfg s hw).DDRB.testBit 5 = false ∧ (mainStep cfg s hw).servo = s.servo ∧
      (mainStep cfg s hw).ledTimeout = s.ledTimeout ∧ (mainStep cfg s hw).PORTB = s.PORTB) ∧
    (∀ hw2 : Hw, (mainStep cfg s hw2).pc = Pc.waitAddrAck → hw2.USIDR % 2 = 0) := by
  have he : ∀ p : Nat, myAddress cfg p = 2 * deviceAddress cfg p :=
    fun p => myAddress_eq cfg p h4 h5 h6
  have hrej : ¬ (hw.USIDR = 0 ∨ hw.USIDR = myAddress cfg hw.PINB) := by
    rw [he]
    omega
  have hs : mainStep cfg s hw = loopTop s := by
    rw [mainStep_checkAddr cfg s hw hpc]
    by_cases hf : hw.USISR &&& (1 <<< USIOIF) ≠ 0
    · rw [if_pos hf, if_neg hrej]
    · rw [if_neg hf]
  refine ⟨?_, ?_⟩
  · rw [hs]
    simp [loopTop, testBit_clr_32]
  · intro hw2 hacc
    rw [mainStep_checkAddr cfg s hw2 hpc] at hacc
    by_cases hf : hw2.USISR &&& (1 <<< USIOIF) ≠ 0
    · by_cases ha : hw2.USIDR = 0 ∨ hw2.USIDR = myAddress cfg hw2.PINB
      · rw [he] at ha
        omega
      · rw [if_pos hf, if_neg ha] at hacc
        cases hacc
    · rw [if_neg hf] at hacc
      cases hacc

/-- Witness of C19: the byte 0x1F at the address check of the source
configuration with all address pins high. -/
theorem read_address_rejected_witness :
    sourceConfig.b4 ≤ 1 ∧ sourceConfig.b5 ≤ 1 ∧ sourceConfig.b6 ≤ 1 ∧
      ({ init with pc := Pc.checkAddr } : State).pc = Pc.checkAddr ∧
      ((0x1F : Nat) = 2 * deviceAddress sourceConfig 30 + 1 ∨ (0x1F : Nat) = 1) ∧
      (mainStep sourceConfig { init with pc := Pc.checkAddr } ⟨64, 0x1F, 30⟩).pc =
        Pc.waitStart ∧
      (mainStep sourceConfig { init with pc := Pc.checkAddr } ⟨64, 0x1F, 30⟩).acks = init.acks :=
  ⟨by decide, by decide, by decide, rfl, by decide,
    (read_address_rejected sourceConfig { init with pc := Pc.checkAddr } ⟨64, 0x1F, 30⟩
      (by decide) (by decide) (by decide) rfl (by decide)).1.1,
    (read_address_rejected sourceConfig { init with pc := Pc.checkAddr } ⟨64, 0x1F, 30⟩
      (by decide) (by decide) (by decide) rfl (by decide)).1.2.1⟩

/-! ## The compare registers and a byte stored in between -/

theorem ovf_OCR0A (s : State) :
    (TIMER0_OVF_vect s).OCR0A = rd (TIMER0_OVF_vect s).servo (TIMER0_OVF_vect s).loop := by
  rw [ovf_servo, ovf_loop]
  unfold TIMER0_OVF_vect
  rw [ledTick_OCR0A]
  show rd (raiseSecond (raiseFirst s)).servo (nextLoop (raiseSecond (raiseFirst s)).loop) = _
  rw [raiseSecond_loop, raiseFirst_loop, raiseSecond_servo, raiseFirst_servo]

theorem ovf_OCR0B (s : State) :
    (TIMER0_OVF_vect s).OCR0B =
      rd (TIMER0_OVF_vect s).servo ((TIMER0_OVF_vect s).loop + 5) := by
  rw [ovf_servo, ovf_loop]
  unfold TIMER0_OVF_vect
  rw [ledTick_OCR0B]
  show rd (raiseSecond (raiseFirst s)).servo
    (nextLoop (raiseSecond (raiseFirst s)).loop + 5) = _
  rw [raiseSecond_loop, raiseFirst_loop, raiseSecond_servo, raiseFirst_servo]

/-- C20: right after every overflow event compare register A holds the servo
value at the cursor and register B the one five places further.  The store of
a data byte does not keep this: it changes the servo value and leaves the
registers, so a byte stored at the cursor that differs from register A leaves
register A different from the servo value at the cursor.  From boot, after
five overflow events the cursor is 0 and both registers hold 0; the first
data byte 100 of a transaction then makes `servo[0]` 100 with register A
still 0, and the next overflow event raises the pin of servo 0 on the new
value while register A holds the old one until that event reloads it with
`servo[1]`. -/
theorem armed_pair_not_preserved (cfg : Config) :
    (∀ s : State,
      (TIMER0_OVF_vect s).OCR0A = rd (TIMER0_OVF_vect s).servo (TIMER0_OVF_vect s).loop ∧
      (TIMER0_OVF_vect s).OCR0B =
        rd (TIMER0_OVF_vect s).servo ((TIMER0_OVF_vect s).loop + 5)) ∧
    (∀ (s : State) (hw : Hw), s.pc = Pc.checkData s.loop →
      hw.USISR &&& (1 <<< USIOIF) ≠ 0 → s.loop < s.servo.length →
      s.OCR0A ≠ hw.USIDR % 256 →
      (mainStep cfg s hw).OCR0A = s.OCR0A ∧ (mainStep cfg s hw).loop = s.loop ∧
      (mainStep cfg s hw).OCR0A ≠ rd (mainStep cfg s hw).servo (mainStep cfg s hw).loop) ∧
    ((run sourceConfig init (List.replicate 5 Event.ovf ++ addressPolls 30 30 ++
        ackPoll 30 :: (bytePolls 30 100).take 1)).pc = Pc.checkData 0 ∧
      (run sourceConfig init (List.replicate 5 Event.ovf ++ addressPolls 30 30 ++
        ackPoll 30 :: (bytePolls 30 100).take 1)).loop = 0 ∧
      (run sourceConfig init (List.replicate 5 Event.ovf ++ addressPolls 30 30 ++
        ackPoll 30 :: (bytePolls 30 100).take 1)).OCR0A =
        rd (run sourceConfig init (List.replicate 5 Event.ovf ++ addressPolls 30 30 ++
          ackPoll 30 :: (bytePolls 30 100).take 1)).servo 0 ∧
      (run sourceConfig init (List.replicate 5 Event.ovf ++ addressPolls 30 30 ++
        ackPoll 30 :: (bytePolls 30 100).take 2)).OCR0A = 0 ∧
      rd (run sourceConfig init (List.replicate 5 Event.ovf ++ addressPolls 30 30 ++
        ackPoll 30 :: (bytePolls 30 100).take 2)).servo 0 = 100 ∧
      pinHigh (run sourceConfig init (List.replicate 5 Event.ovf ++ addressPolls 30 30 ++
        ackPoll 30 :: (bytePolls 30 100).take 2 ++ [Event.ovf])) 0 = true ∧
      (run sourceConfig init (List.replicate 5 Event.ovf ++ addressPolls 30 30 ++
        ackPoll 30 :: (bytePolls 30 100).take 2 ++ [Event.ovf])).OCR0A = 0) := by
  refine ⟨fun s => ⟨ovf_OCR0A s, ovf_OCR0B s⟩, ?_, by decide⟩
  intro s hw hpc hf hlen hne
  obtain ⟨f1, _, _, _, _⟩ := mainStep_frame cfg s hw
  have hl := mainStep_loop cfg s hw
  have hstep := mainStep_checkData cfg s hw s.loop hpc
  rw [if_pos hf] at hstep
  have hsv : (mainStep cfg s hw).servo = s.servo.set s.loop (hw.USIDR % 256) := by
    rw [hstep]; rfl
  refine ⟨f1, hl, ?_⟩
  rw [f1, hl, hsv]
  unfold rd
  rw [List.getD_eq_getElem _ _ (by rw [List.length_set]; exact hlen)]
  simpa using hne

/-- Witness of C20: a byte 100 stored at the cursor while register A holds 0. -/
theorem armed_pair_not_preserved_witness :
    ({ init with pc := Pc.checkData 0 } : State).pc =
        Pc.checkData ({ init with pc := Pc.checkData 0 } : State).loop ∧
      (64 : Nat) &&& (1 <<< USIOIF) ≠ 0 ∧
      ({ init with pc := Pc.checkData 0 } : State).OCR0A ≠ 100 % 256 ∧
      (mainStep sourceConfig { init with pc := Pc.checkData 0 } ⟨64, 100, 30⟩).OCR0A ≠
        rd (mainStep sourceConfig { init with pc := Pc.checkData 0 } ⟨64, 100, 30⟩).servo
          (mainStep sourceConfig { init with pc := Pc.checkData 0 } ⟨64, 100, 30⟩).loop :=
  ⟨rfl, by decide, by decide,
    ((armed_pair_not_preserved sourceConfig).2.1 { init with pc := Pc.checkData 0 }
      ⟨64, 100, 30⟩ rfl (by decide) (by decide) (by decide)).2.2⟩

end ServoController
